import Mathlib

/-!
Verification of the room/recording/signaling core of a WebRTC SFU video
platform (NestJS backend `RoomService`, `RecordingService`, `WebRTCGateway`,
plus the React client's participant reconciliation logic).

JavaScript `Map`s are modelled as association lists with `Map.set`
(replace-or-append) and `Map.delete` (remove first binding) semantics.
External collaborators (mediasoup router/transport creation, FFmpeg process
start, codec-compatibility checks) are async fallible calls; their outcomes
enter the model as explicit boolean oracle arguments, and identifiers
produced by `uuidv4` enter as explicit fresh-name arguments.
-/

namespace WebRTCPlatform

/-- Association-list representation of a JavaScript `Map` keyed by strings. -/
abbrev SMap (α : Type) := List (String × α)

/-- `Map.get`: value at the first binding of `k`, if any. -/
def mget {α : Type} : SMap α → String → Option α
  | [], _ => none
  | (k', v) :: rest, k => if k' = k then some v else mget rest k

/-- `Map.set`: replace the first binding of `k` in place, else append. -/
def mset {α : Type} : SMap α → String → α → SMap α
  | [], k, v => [(k, v)]
  | (k', v') :: rest, k, v =>
    if k' = k then (k', v) :: rest else (k', v') :: mset rest k v

/-- `Map.delete`: remove the first binding of `k`. -/
def mdel {α : Type} : SMap α → String → SMap α
  | [], _ => []
  | (k', v') :: rest, k => if k' = k then rest else (k', v') :: mdel rest k

/-- `Map.has`. -/
def mhas {α : Type} (m : SMap α) (k : String) : Bool :=
  (mget m k).isSome

/-- `Map.keys` (in insertion order). -/
def mkeys {α : Type} (m : SMap α) : List String :=
  m.map Prod.fst

/-- `Map.values` (in insertion order). -/
def mvalues {α : Type} (m : SMap α) : List α :=
  m.map Prod.snd

/-- Insert into a set-like list if not present (used for active-recorder ids). -/
def sinsert (l : List String) (k : String) : List String :=
  if l.contains k then l else k :: l

/-- `true` exactly on `Except.ok`. -/
def exOk {ε α : Type} : Except ε α → Bool
  | .ok _ => true
  | .error _ => false

/-- Transport direction requested by the client (`'send' | 'recv'`). -/
inductive Direction
  | send
  | recv
deriving DecidableEq, Repr

/-- A mediasoup WebRTC transport handle as stored in `peer.transports`.
`appDataDirection` models `transport.appData.direction`; the gateway's
`createWebRtcTransport` call passes no `appData`, so the field is `none` on
every transport it stores. -/
structure Transport where
  id : String
  appDataDirection : Option Direction
deriving DecidableEq, Repr

/-- A mediasoup producer handle as stored in `peer.producers`. -/
structure Producer where
  id : String
  kind : String
deriving DecidableEq, Repr

/-- A mediasoup consumer handle as stored in `peer.consumers`
(created with `paused: true`). -/
structure Consumer where
  id : String
  producerId : String
  paused : Bool
deriving DecidableEq, Repr

/-- `PeerInfo` from `webrtc.interface.ts`. -/
structure PeerInfo where
  id : String
  name : String
  transports : SMap Transport
  producers : SMap Producer
  consumers : SMap Consumer
deriving DecidableEq, Repr

/-- The `recording` sub-object of `RoomInfo`. Times are abstract `Nat`s. -/
structure RoomRecordingFlag where
  isRecording : Bool
  recordingId : Option String
  startTime : Option Nat
  filePath : Option String
deriving DecidableEq, Repr

/-- `RoomInfo` from `webrtc.interface.ts` (the `router` handle lives in the
separate `routers` registry of `MediasoupService`, keyed by room id). -/
structure RoomInfo where
  id : String
  name : String
  peers : SMap PeerInfo
  recording : RoomRecordingFlag
deriving DecidableEq, Repr

/-- `RecordingInfo.status` values. -/
inductive RecStatus
  | recording
  | stopped
  | processing
  | completed
  | failed
deriving DecidableEq, Repr

/-- `RecordingInfo` from `webrtc.interface.ts`. -/
structure RecordingInfo where
  id : String
  roomId : String
  filePath : String
  startTime : Nat
  endTime : Option Nat
  status : RecStatus
  participants : List String
deriving DecidableEq, Repr

/-- Media-engine side effects performed by the room service
(`transport.close()`, `producer.close()`, `consumer.close()`,
`peers.delete`, `router.close()`, room removal), recorded as a trace. -/
inductive REvent
  | closedTransport (id : String)
  | closedProducer (id : String)
  | closedConsumer (id : String)
  | removedPeer (roomId peerId : String)
  | closedRouter (roomId : String)
  | removedRoom (roomId : String)
deriving DecidableEq, Repr

/-- Combined server-side state: `RoomService.rooms`, the
`MediasoupService.routers` registry (`routers` = open router ids,
`closedRouters` = ghost trace of closed ones), `RecordingService.recordings`
and `RecordingService.activeRecorders` (ids of live FFmpeg processes).
`usedRoomIds` is a ghost field recording every room id ever allocated, used
to express that `uuidv4` never re-issues an id. -/
structure SysState where
  rooms : SMap RoomInfo
  routers : List String
  closedRouters : List String
  recordings : SMap RecordingInfo
  activeRecorders : List String
  usedRoomIds : List String
deriving DecidableEq, Repr

/-- The state before any operation. -/
def initState : SysState :=
  { rooms := [], routers := [], closedRouters := [], recordings := [],
    activeRecorders := [], usedRoomIds := [] }

/-- `RoomService.createRoom`: allocate a router for the new id (fallible,
outcome `routerOk`), register the room with an empty peer map and
`recording.isRecording = false`. On router failure the error is rethrown and
no room is registered. -/
def createRoom (s : SysState) (roomId roomName : String) (routerOk : Bool) :
    Except String RoomInfo × SysState :=
  if routerOk then
    let room : RoomInfo :=
      { id := roomId, name := roomName, peers := [],
        recording := { isRecording := false, recordingId := none,
                       startTime := none, filePath := none } }
    (.ok room,
     { s with rooms := mset s.rooms roomId room,
              routers := if s.routers.contains roomId then s.routers
                         else roomId :: s.routers,
              usedRoomIds := roomId :: s.usedRoomIds })
  else (.error "Failed to create router", s)

/-- `RoomService.getRoom`. -/
def getRoom (s : SysState) (roomId : String) : Option RoomInfo :=
  mget s.rooms roomId

/-- `RoomService.getRoomByName`: first room (in insertion order) with the
given name. -/
def getRoomByName (s : SysState) (roomName : String) : Option RoomInfo :=
  (mvalues s.rooms).find? (fun room => room.name = roomName)

/-- `RoomService.joinRoom`: throws if the room is unknown or the peer id is
already present; otherwise inserts a fresh `PeerInfo` with empty maps. -/
def joinRoom (s : SysState) (roomId peerId peerName : String) :
    Except String PeerInfo × SysState :=
  match mget s.rooms roomId with
  | none => (.error "Room not found", s)
  | some room =>
    if mhas room.peers peerId then (.error "Peer already in room", s)
    else
      let peer : PeerInfo :=
        { id := peerId, name := peerName, transports := [], producers := [],
          consumers := [] }
      let room' := { room with peers := mset room.peers peerId peer }
      (.ok peer, { s with rooms := mset s.rooms roomId room' })

/-- `MediasoupService.removeRouter`: close and deregister the room's router
if it exists. -/
def removeRouter (s : SysState) (roomId : String) : SysState × List REvent :=
  if s.routers.contains roomId then
    ({ s with routers := s.routers.erase roomId,
              closedRouters := roomId :: s.closedRouters },
     [.closedRouter roomId])
  else (s, [])

/-- `RoomService.leaveRoom`: `false` if room or peer is unknown; otherwise
closes every transport, producer and consumer owned by the peer, deletes the
peer, and — when the room became empty — performs `closeRoom` (whose loop
over remaining peers is vacuous there): `removeRouter` plus room removal.
Side effects are returned as an ordered trace. -/
def leaveRoom (s : SysState) (roomId peerId : String) :
    Bool × SysState × List REvent :=
  match mget s.rooms roomId with
  | none => (false, s, [])
  | some room =>
    match mget room.peers peerId with
    | none => (false, s, [])
    | some peer =>
      let closes : List REvent :=
        (mkeys peer.transports).map REvent.closedTransport
          ++ (mkeys peer.producers).map REvent.closedProducer
          ++ (mkeys peer.consumers).map REvent.closedConsumer
      let room' := { room with peers := mdel room.peers peerId }
      let s' := { s with rooms := mset s.rooms roomId room' }
      if room'.peers.length = 0 then
        let rr := removeRouter s' roomId
        (true, { rr.1 with rooms := mdel rr.1.rooms roomId },
         closes ++ REvent.removedPeer roomId peerId ::
           (rr.2 ++ [REvent.removedRoom roomId]))
      else
        (true, s', closes ++ [REvent.removedPeer roomId peerId])

/-- `RoomService.getPeer`. -/
def getPeer (s : SysState) (roomId peerId : String) : Option PeerInfo :=
  match mget s.rooms roomId with
  | none => none
  | some room => mget room.peers peerId

/-- `RoomService.getRoomPeers`. -/
def getRoomPeers (s : SysState) (roomId : String) : List PeerInfo :=
  match mget s.rooms roomId with
  | none => []
  | some room => mvalues room.peers

/-- `RoomService.getRoomPeersExcept`. -/
def getRoomPeersExcept (s : SysState) (roomId excludePeerId : String) :
    List PeerInfo :=
  match mget s.rooms roomId with
  | none => []
  | some room => (mvalues room.peers).filter (fun p => !(p.id == excludePeerId))

/-- Store an updated peer object back into its room (the source mutates the
shared `PeerInfo` object in place). -/
def setPeer (s : SysState) (roomId peerId : String) (peer : PeerInfo) :
    SysState :=
  match mget s.rooms roomId with
  | none => s
  | some room =>
    let room' := { room with peers := mset room.peers peerId peer }
    { s with rooms := mset s.rooms roomId room' }

/-- `RoomService.updateRoomRecordingStatus`. -/
def updateRoomRecordingStatus (s : SysState) (roomId : String)
    (isRecording : Bool) (recordingId filePath : Option String) (now : Nat) :
    SysState :=
  match mget s.rooms roomId with
  | none => s
  | some room =>
    let flag : RoomRecordingFlag :=
      { isRecording := isRecording, recordingId := recordingId,
        filePath := filePath,
        startTime := if isRecording then some now else room.recording.startTime }
    { s with rooms := mset s.rooms roomId ({ room with recording := flag }) }

/-- `RoomService.isRoomRecording`. -/
def isRoomRecording (s : SysState) (roomId : String) : Bool :=
  match mget s.rooms roomId with
  | none => false
  | some room => room.recording.isRecording

/-- `RecordingService.startRecording`. `recId`/`filePathArg` stand for the
generated uuid and output path, `now` for `new Date()`; `plainOk` and
`ffmpegOk` are the outcomes of `createPlainTransport` and of the FFmpeg
process start. On either failure the local `recordingInfo` has its `status`
set to `'failed'` and the error is rethrown, but the object was never added
to `recordings`, so the stored state is unchanged. On success the FFmpeg
`start` callback registers the active recorder, the session is stored with
status `'recording'`, and the room flag is set. -/
def startRecording (s : SysState) (roomId recId filePathArg : String)
    (now : Nat) (plainOk ffmpegOk : Bool) :
    Except String RecordingInfo × SysState :=
  match mget s.rooms roomId with
  | none => (.error "Room not found", s)
  | some room =>
    if isRoomRecording s roomId then
      (.error "Room is already being recorded", s)
    else
      let info : RecordingInfo :=
        { id := recId, roomId := roomId, filePath := filePathArg,
          startTime := now, endTime := none, status := .recording,
          participants := mkeys room.peers }
      if plainOk = false then (.error "Failed to create plain transport", s)
      else if ffmpegOk = false then (.error "FFmpeg failed to start", s)
      else
        let s1 := { s with activeRecorders := sinsert s.activeRecorders recId,
                           recordings := mset s.recordings recId info }
        (.ok info,
         updateRoomRecordingStatus s1 roomId true (some recId)
           (some filePathArg) now)

/-- `RecordingService.stopRecording`: rejects unknown ids and sessions whose
status is not `'recording'` before any mutation; otherwise kills the FFmpeg
process, records `endTime`, sets status `'stopped'` and clears the room
flag. -/
def stopRecording (s : SysState) (recId : String) (now : Nat) :
    Except String RecordingInfo × SysState :=
  match mget s.recordings recId with
  | none => (.error "Recording not found", s)
  | some r0 =>
    if r0.status ≠ RecStatus.recording then
      (.error "Recording is not active", s)
    else
      let r1 := { r0 with endTime := some now, status := RecStatus.stopped }
      let s1 := { s with activeRecorders := s.activeRecorders.erase recId,
                         recordings := mset s.recordings recId r1 }
      (.ok r1, updateRoomRecordingStatus s1 r0.roomId false none none now)

/-- FFmpeg `end` event handler: drop the active recorder and promote a
`'stopped'` session to `'completed'`. -/
def ffmpegEnd (s : SysState) (recId : String) : SysState :=
  let s1 := { s with activeRecorders := s.activeRecorders.erase recId }
  match mget s1.recordings recId with
  | none => s1
  | some r0 =>
    if r0.status = RecStatus.stopped then
      let r1 := { r0 with status := RecStatus.completed }
      { s1 with recordings := mset s1.recordings recId r1 }
    else s1

/-- FFmpeg `error` event handler (after a successful start): drop the active
recorder. -/
def ffmpegError (s : SysState) (recId : String) : SysState :=
  { s with activeRecorders := s.activeRecorders.erase recId }

/-- `RecordingService.getRecording`. -/
def getRecording (s : SysState) (recId : String) : Option RecordingInfo :=
  mget s.recordings recId

/-- `RecordingService.getAllRecordings`. -/
def getAllRecordings (s : SysState) : List RecordingInfo :=
  mvalues s.recordings

/-- `RecordingService.deleteRecording`: stop first if still active, then
discard the stored record (file deletion is an external effect). -/
def deleteRecording (s : SysState) (recId : String) (now : Nat) :
    Bool × SysState :=
  match mget s.recordings recId with
  | none => (false, s)
  | some r0 =>
    let s1 := if r0.status = RecStatus.recording
              then (stopRecording s recId now).2 else s
    (true, { s1 with recordings := mdel s1.recordings recId })

/-- Messages emitted by the gateway. -/
inductive Msg
  | joined (peerId roomId : String) (isRecording : Bool)
  | peerJoined (peerId peerName : String)
  | existingPeers (peers : List (String × String))
  | transportCreated (transportId : String)
  | transportConnected (transportId : String)
  | produced (producerId : String)
  | newProducer (peerId producerId kind : String)
  | consumed (consumerId producerId : String)
  | consumerResumed (consumerId : String)
  | recordingStarted (recordingId : String)
  | recordingStopped (recordingId : String)
  | peerLeft (peerId : String)
  | errorMsg (message : String)
deriving DecidableEq, Repr

/-- Emission target: `socket.emit` (the requesting connection only),
`socket.to(roomId).emit` (everyone else in the room), or
`server.to(roomId).emit` (everyone in the room). -/
inductive Emit
  | direct (m : Msg)
  | toRoom (roomId : String) (m : Msg)
  | toAll (roomId : String) (m : Msg)
deriving DecidableEq, Repr

/-- `WebRTCGateway.handleJoin` for a connection whose socket carries
`peerId`: look up the room by name, create it if absent (`freshRoomId` is
the uuid, `routerOk` the router-allocation outcome), join, and on success
emit — in this order — the direct `joined` response, the `peerJoined`
broadcast to the rest of the room, and the direct `existingPeers` snapshot
(computed after the join, excluding the joiner). Returns the emissions, the
new state, and the `socket.data.roomId` assignment (`some` exactly on
success). -/
def handleJoin (s : SysState) (peerId roomName peerName freshRoomId : String)
    (routerOk : Bool) : List Emit × SysState × Option String :=
  let found := getRoomByName s roomName
  let created : Except String RoomInfo × SysState :=
    match found with
    | some room => (.ok room, s)
    | none => createRoom s freshRoomId roomName routerOk
  match created with
  | (.error e, s1) => ([.direct (.errorMsg e)], s1, none)
  | (.ok room, s1) =>
    match joinRoom s1 room.id peerId peerName with
    | (.error e, s2) => ([.direct (.errorMsg e)], s2, none)
    | (.ok _, s2) =>
      let isRec :=
        match mget s2.rooms room.id with
        | some r => r.recording.isRecording
        | none => false
      let others := getRoomPeersExcept s2 room.id peerId
      ([.direct (.joined peerId room.id isRec),
        .toRoom room.id (.peerJoined peerId peerName),
        .direct (.existingPeers (others.map (fun p => (p.id, p.name))))],
       s2, some room.id)

/-- `WebRTCGateway.handleCreateTransport`: validates room (from the socket's
`roomId`) and peer (from the payload), then asks the engine for a WebRTC
transport (`engineOk` the outcome, `freshTid` its id) and stores it keyed by
its id. The requested `direction` only selects engine bitrate options; it is
not recorded on the stored transport and no per-direction check is made. -/
def handleCreateTransport (s : SysState) (socketRoomId : Option String)
    (peerId : String) (direction : Direction) (freshTid : String)
    (engineOk : Bool) : List Emit × SysState :=
  match socketRoomId with
  | none => ([.direct (.errorMsg "Room not found")], s)
  | some roomId =>
    match mget s.rooms roomId with
    | none => ([.direct (.errorMsg "Room not found")], s)
    | some room =>
      match mget room.peers peerId with
      | none => ([.direct (.errorMsg "Peer not found")], s)
      | some peer =>
        if engineOk = false then
          ([.direct (.errorMsg "Failed to create WebRTC transport")], s)
        else
          let t : Transport := { id := freshTid, appDataDirection := none }
          let peer' := { peer with transports := mset peer.transports freshTid t }
          let _ := direction
          ([.direct (.transportCreated freshTid)], setPeer s roomId peerId peer')

/-- `WebRTCGateway.handleConnectTransport`: validations plus an engine-side
`transport.connect` (outcome `engineOk`); no stored state changes. -/
def handleConnectTransport (s : SysState) (socketRoomId : Option String)
    (socketPeerId transportId : String) (engineOk : Bool) :
    List Emit × SysState :=
  match socketRoomId with
  | none => ([.direct (.errorMsg "Peer not found")], s)
  | some roomId =>
    match getPeer s roomId socketPeerId with
    | none => ([.direct (.errorMsg "Peer not found")], s)
    | some peer =>
      match mget peer.transports transportId with
      | none => ([.direct (.errorMsg "Transport not found")], s)
      | some _ =>
        if engineOk = false then
          ([.direct (.errorMsg "Failed to connect transport")], s)
        else ([.direct (.transportConnected transportId)], s)

/-- `WebRTCGateway.handleProduce`: validates peer and transport, creates a
producer on the engine (`engineOk`, id `freshProducerId`), stores it, and
answers with a direct `produced` plus a `newProducer` broadcast. -/
def handleProduce (s : SysState) (socketRoomId : Option String)
    (peerId transportId kind : String) (freshProducerId : String)
    (engineOk : Bool) : List Emit × SysState :=
  match socketRoomId with
  | none => ([.direct (.errorMsg "Peer not found")], s)
  | some roomId =>
    match getPeer s roomId peerId with
    | none => ([.direct (.errorMsg "Peer not found")], s)
    | some peer =>
      match mget peer.transports transportId with
      | none => ([.direct (.errorMsg "Transport not found")], s)
      | some _ =>
        if engineOk = false then
          ([.direct (.errorMsg "Failed to produce")], s)
        else
          let producer : Producer := { id := freshProducerId, kind := kind }
          let producers' := mset peer.producers freshProducerId producer
          let peer' := { peer with producers := producers' }
          ([.direct (.produced freshProducerId),
            .toRoom roomId (.newProducer peerId freshProducerId kind)],
           setPeer s roomId peerId peer')

/-- `WebRTCGateway.handleConsume`: validates room and peer, locates the peer
owning `producerId` (there is no check that it differs from the requester),
asks the engine `canConsume` (oracle), then looks for a receive transport
via `t.appData?.direction === 'recv'` among the requester's transports; if
one is found, a paused consumer is created (`freshConsumerId`) and
stored. -/
def handleConsume (s : SysState) (socketRoomId : Option String)
    (peerId producerId : String) (canConsume : Bool)
    (freshConsumerId : String) : List Emit × SysState :=
  match socketRoomId with
  | none => ([.direct (.errorMsg "Room or peer not found")], s)
  | some roomId =>
    match mget s.rooms roomId, getPeer s roomId peerId with
    | some _, some peer =>
      match (getRoomPeers s roomId).find?
          (fun p => mhas p.producers producerId) with
      | none => ([.direct (.errorMsg "Producer not found")], s)
      | some _ =>
        if canConsume = false then
          ([.direct (.errorMsg "Cannot consume")], s)
        else
          match (mvalues peer.transports).find?
              (fun t => t.appDataDirection = some Direction.recv) with
          | none => ([.direct (.errorMsg "Receive transport not found")], s)
          | some _ =>
            let consumer : Consumer :=
              { id := freshConsumerId, producerId := producerId,
                paused := true }
            let consumers' := mset peer.consumers freshConsumerId consumer
            let peer' := { peer with consumers := consumers' }
            ([.direct (.consumed freshConsumerId producerId)],
             setPeer s roomId peerId peer')
    | _, _ => ([.direct (.errorMsg "Room or peer not found")], s)

/-- `WebRTCGateway.handleResumeConsumer`: validates peer and consumer, then
resumes the consumer on the engine (outcome `engineOk`). -/
def handleResumeConsumer (s : SysState) (socketRoomId : Option String)
    (socketPeerId consumerId : String) (engineOk : Bool) :
    List Emit × SysState :=
  match socketRoomId with
  | none => ([.direct (.errorMsg "Peer not found")], s)
  | some roomId =>
    match getPeer s roomId socketPeerId with
    | none => ([.direct (.errorMsg "Peer not found")], s)
    | some peer =>
      match mget peer.consumers consumerId with
      | none => ([.direct (.errorMsg "Consumer not found")], s)
      | some consumer =>
        if engineOk = false then
          ([.direct (.errorMsg "Failed to resume consumer")], s)
        else
          let consumer' := { consumer with paused := false }
          let peer' := { peer with consumers := mset peer.consumers consumerId consumer' }
          ([.direct (.consumerResumed consumerId)],
           setPeer s roomId socketPeerId peer')

/-- `WebRTCGateway.handleDisconnect`: when the socket was bound to a room,
leave it and broadcast `peerLeft`. -/
def handleDisconnect (s : SysState) (socketRoomId : Option String)
    (socketPeerId : String) : List Emit × SysState × List REvent :=
  match socketRoomId with
  | none => ([], s, [])
  | some roomId =>
    let r := leaveRoom s roomId socketPeerId
    ([.toRoom roomId (.peerLeft socketPeerId)], r.2.1, r.2.2)

/-- A join or leave/disconnect operation targeted at one room. -/
inductive RoomOp
  | join (peerId peerName : String)
  | leave (peerId : String)
deriving DecidableEq, Repr

/-- Apply one room operation (state part). -/
def applyRoomOp (s : SysState) (roomId : String) : RoomOp → SysState
  | .join pid pname => (joinRoom s roomId pid pname).2
  | .leave pid => (leaveRoom s roomId pid).2.1

/-- Whether one room operation succeeds on the given state
(`joinRoom` did not throw / `leaveRoom` returned `true`). -/
def roomOpOk (s : SysState) (roomId : String) : RoomOp → Bool
  | .join pid pname => exOk (joinRoom s roomId pid pname).1
  | .leave pid => (leaveRoom s roomId pid).1

/-- Apply a sequence of room operations left to right. -/
def applyRoomOps (s : SysState) (roomId : String) : List RoomOp → SysState
  | [] => s
  | op :: ops => applyRoomOps (applyRoomOp s roomId op) roomId ops

/-- All operations in the sequence succeed, each on the state left by its
predecessors. -/
def roomOpsOk (s : SysState) (roomId : String) : List RoomOp → Bool
  | [] => true
  | op :: ops =>
    roomOpOk s roomId op && roomOpsOk (applyRoomOp s roomId op) roomId ops

/-- Number of `join` operations in a sequence. -/
def joinCount (ops : List RoomOp) : Nat :=
  ops.countP (fun op => match op with | .join _ _ => true | .leave _ => false)

/-- Number of `leave` operations in a sequence. -/
def leaveCount (ops : List RoomOp) : Nat :=
  ops.countP (fun op => match op with | .join _ _ => false | .leave _ => true)

/-- Size of a room's peer map (0 if the room is not registered). -/
def peerCount (s : SysState) (roomId : String) : Nat :=
  match mget s.rooms roomId with
  | none => 0
  | some room => room.peers.length

/-- The room has been torn down: deregistered and its router closed. -/
def roomTornDown (s : SysState) (roomId : String) : Prop :=
  mget s.rooms roomId = none ∧ roomId ∈ s.closedRouters

/-- One externally triggerable operation of the server (gateway message,
disconnect, service call, or FFmpeg process event). Fresh ids produced by
`uuidv4` are required not to collide with any id already in use. -/
inductive Step : SysState → SysState → Prop
  | createRoom (s : SysState) (roomId roomName : String) (routerOk : Bool)
      (hfresh : roomId ∉ s.usedRoomIds) :
      Step s (createRoom s roomId roomName routerOk).2
  | joinRoom (s : SysState) (roomId peerId peerName : String) :
      Step s (joinRoom s roomId peerId peerName).2
  | leaveRoom (s : SysState) (roomId peerId : String) :
      Step s (leaveRoom s roomId peerId).2.1
  | handleJoin (s : SysState) (peerId roomName peerName freshRoomId : String)
      (routerOk : Bool) (hfresh : freshRoomId ∉ s.usedRoomIds) :
      Step s (handleJoin s peerId roomName peerName freshRoomId routerOk).2.1
  | createTransport (s : SysState) (socketRoomId : Option String)
      (peerId : String) (direction : Direction) (freshTid : String)
      (engineOk : Bool) :
      Step s (handleCreateTransport s socketRoomId peerId direction freshTid
        engineOk).2
  | connectTransport (s : SysState) (socketRoomId : Option String)
      (socketPeerId transportId : String) (engineOk : Bool) :
      Step s (handleConnectTransport s socketRoomId socketPeerId transportId
        engineOk).2
  | produce (s : SysState) (socketRoomId : Option String)
      (peerId transportId kind freshProducerId : String) (engineOk : Bool) :
      Step s (handleProduce s socketRoomId peerId transportId kind
        freshProducerId engineOk).2
  | consume (s : SysState) (socketRoomId : Option String)
      (peerId producerId : String) (canConsume : Bool)
      (freshConsumerId : String) :
      Step s (handleConsume s socketRoomId peerId producerId canConsume
        freshConsumerId).2
  | resumeConsumer (s : SysState) (socketRoomId : Option String)
      (socketPeerId consumerId : String) (engineOk : Bool) :
      Step s (handleResumeConsumer s socketRoomId socketPeerId consumerId
        engineOk).2
  | disconnect (s : SysState) (socketRoomId : Option String)
      (socketPeerId : String) :
      Step s (handleDisconnect s socketRoomId socketPeerId).2.1
  | startRecording (s : SysState) (roomId recId filePathArg : String)
      (now : Nat) (plainOk ffmpegOk : Bool)
      (hfresh : mget s.recordings recId = none) :
      Step s (startRecording s roomId recId filePathArg now plainOk ffmpegOk).2
  | stopRecording (s : SysState) (recId : String) (now : Nat) :
      Step s (stopRecording s recId now).2
  | ffmpegEnd (s : SysState) (recId : String) :
      Step s (ffmpegEnd s recId)
  | ffmpegError (s : SysState) (recId : String) :
      Step s (ffmpegError s recId)
  | deleteRecording (s : SysState) (recId : String) (now : Nat) :
      Step s (deleteRecording s recId now).2

/-- States reachable from the empty initial state. -/
inductive Reachable : SysState → Prop
  | init : Reachable initState
  | step {s s' : SysState} : Reachable s → Step s s' → Reachable s'

/-- Client-side participant entry (`PeerInfo` of `WebRTCClient.ts`). -/
structure CPeer where
  id : String
  name : String
deriving DecidableEq, Repr

/-- Inputs consumed by the client, in delivery order: the `joined`
acknowledgement, the `existingPeers` snapshot, `peerJoined`/`peerLeft`
deltas, `newProducer`-driven stream arrivals, and the expiry of a
`recentlyProcessedPeers` timeout. -/
inductive ClientEvent
  | joinAck (peerId : String)
  | snapshot (peers : List CPeer)
  | peerJoined (peer : CPeer)
  | peerLeft (peerId : String)
  | newStream (peerId kind : String)
  | recentExpire (peerId : String)
deriving DecidableEq, Repr

/-- `true` on the `joinAck` event. -/
def isJoinAck : ClientEvent → Bool
  | .joinAck _ => true
  | _ => false

/-- Number of stored recordings for room `r` whose status is `'recording'`. -/
def recCount (s : SysState) (r : String) : Nat :=
  (mvalues s.recordings).countP
    (fun info => info.roomId == r && info.status == RecStatus.recording)

/-- The `isRecording` flag of room `r`, when the room is registered. -/
def flagOf (s : SysState) (r : String) : Option Bool :=
  (mget s.rooms r).map (fun room => room.recording.isRecording)

/-- Room-level recording-mutex invariant: every room has at most one stored
session in status `'recording'`; a registered room whose flag is off has
none; and recordings/rooms only ever name allocated room ids. -/
def RecMutexInv (s : SysState) : Prop :=
  ∀ r : String,
    recCount s r ≤ 1
    ∧ (flagOf s r = some false → recCount s r = 0)
    ∧ (1 ≤ recCount s r → r ∈ s.usedRoomIds)
    ∧ (flagOf s r ≠ none → r ∈ s.usedRoomIds)

/-- All transports stored in a peer carry no `appData.direction`. -/
def peerClean (peer : PeerInfo) : Prop :=
  ∀ tp : String × Transport, tp ∈ peer.transports →
    tp.2.appDataDirection = none

/-- All transports stored anywhere in the registry carry no
`appData.direction` (the gateway never attaches one). -/
def TransportsClean (s : SysState) : Prop :=
  ∀ rp : String × RoomInfo, rp ∈ s.rooms →
    ∀ pp : String × PeerInfo, pp ∈ rp.2.peers → peerClean pp.2

/-- Master reachability invariant: registry keys are duplicate-free, the
recording mutex holds, and no stored transport carries a direction tag. -/
def SysInv (s : SysState) : Prop :=
  (mkeys s.rooms).Nodup ∧ (mkeys s.recordings).Nodup
    ∧ RecMutexInv s ∧ TransportsClean s

/-- Induction invariant for the room lifecycle count: after `joins` joins,
`leaves` leaves and `opsLen` operations in total on `roomId`, either the
room is still registered with `peers.length = joins - leaves` (positive
unless no operation has happened) and an open router, or the room has been
torn down with `joins = leaves`. -/
def RoomLifeInv (roomId : String) (s : SysState)
    (joins leaves opsLen : Nat) : Prop :=
  (mkeys s.rooms).Nodup ∧
  ((∃ room, mget s.rooms roomId = some room
      ∧ room.peers.length + leaves = joins
      ∧ (opsLen = 0 ∨ 0 < room.peers.length)
      ∧ roomId ∈ s.routers ∧ roomId ∉ s.closedRouters)
   ∨ (joins = leaves ∧ 0 < opsLen ∧ mget s.rooms roomId = none
      ∧ roomId ∈ s.closedRouters))

theorem mget_mset_self {α : Type} (m : SMap α) (k : String) (v : α) :
    mget (mset m k v) k = some v := by
  induction m with
  | nil => simp [mget, mset]
  | cons hd tl ih =>
    obtain ⟨k', v'⟩ := hd
    by_cases h : k' = k <;> simp [mget, mset, h, ih]

theorem mget_mset_ne {α : Type} (m : SMap α) (k k' : String) (v : α)
    (h : k ≠ k') : mget (mset m k v) k' = mget m k' := by
  induction m with
  | nil => simp [mget, mset, h]
  | cons hd tl ih =>
    obtain ⟨k0, v0⟩ := hd
    by_cases h0 : k0 = k
    · subst h0; simp [mget, mset, h]
    · simp only [mset, if_neg h0, mget]
      by_cases h1 : k0 = k' <;> simp [h1, ih]

theorem mem_mset {α : Type} {m : SMap α} {k : String} {v : α}
    {x : String × α} (hx : x ∈ mset m k v) : x = (k, v) ∨ x ∈ m := by
  induction m with
  | nil =>
    simp only [mset, List.mem_singleton] at hx
    exact Or.inl hx
  | cons hd tl ih =>
    obtain ⟨k', v'⟩ := hd
    by_cases h : k' = k
    · subst h
      simp only [mset, eq_self_iff_true, if_true, List.mem_cons] at hx
      rcases hx with hx1 | hx1
      · exact Or.inl hx1
      · exact Or.inr (List.mem_cons.mpr (Or.inr hx1))
    · simp only [mset, if_neg h, List.mem_cons] at hx
      rcases hx with hx1 | hx1
      · exact Or.inr (List.mem_cons.mpr (Or.inl hx1))
      · rcases ih hx1 with h2 | h2
        · exact Or.inl h2
        · exact Or.inr (List.mem_cons.mpr (Or.inr h2))

theorem mem_mdel {α : Type} {m : SMap α} {k : String} {x : String × α}
    (hx : x ∈ mdel m k) : x ∈ m := by
  induction m with
  | nil => simp [mdel] at hx
  | cons hd tl ih =>
    obtain ⟨k', v'⟩ := hd
    by_cases h : k' = k
    · simp only [mdel, if_pos h] at hx
      exact List.mem_cons.mpr (Or.inr hx)
    · simp only [mdel, if_neg h, List.mem_cons] at hx
      rcases hx with hx1 | hx1
      · exact List.mem_cons.mpr (Or.inl hx1)
      · exact List.mem_cons.mpr (Or.inr (ih hx1))

theorem length_mset_of_none {α : Type} {m : SMap α} {k : String} (v : α)
    (h : mget m k = none) : (mset m k v).length = m.length + 1 := by
  induction m with
  | nil => simp [mset]
  | cons hd tl ih =>
    obtain ⟨k', v'⟩ := hd
    by_cases h0 : k' = k
    · simp [mget, h0] at h
    · simp only [mget, if_neg h0] at h
      simp [mset, h0, ih h]

theorem length_mdel_of_some {α : Type} {m : SMap α} {k : String} {v : α}
    (h : mget m k = some v) : (mdel m k).length + 1 = m.length := by
  induction m with
  | nil => simp [mget] at h
  | cons hd tl ih =>
    obtain ⟨k', v'⟩ := hd
    by_cases h0 : k' = k
    · simp [mdel, h0]
    · simp only [mget, if_neg h0] at h
      simp [mdel, h0, ih h]

theorem mdel_mset_same {α : Type} (m : SMap α) (k : String) (v : α) :
    mdel (mset m k v) k = mdel m k := by
  induction m with
  | nil => simp [mset, mdel]
  | cons hd tl ih =>
    obtain ⟨k', v'⟩ := hd
    by_cases h : k' = k <;> simp [mset, mdel, h, ih]

theorem mget_eq_none_of_not_mem_mkeys {α : Type} {m : SMap α} {k : String}
    (h : k ∉ mkeys m) : mget m k = none := by
  induction m with
  | nil => simp [mget]
  | cons hd tl ih =>
    obtain ⟨k', v'⟩ := hd
    simp only [mkeys, List.map_cons, List.mem_cons] at h
    push_neg at h
    rw [mget, if_neg (fun he => h.1 he.symm)]
    exact ih h.2

theorem mkeys_mset_subset {α : Type} (m : SMap α) (k : String) (v : α) :
    mkeys (mset m k v) ⊆ k :: mkeys m := by
  intro a ha
  simp only [mkeys, List.mem_map] at ha
  obtain ⟨x, hx, rfl⟩ := ha
  rcases mem_mset hx with h1 | h1
  · rw [h1]
    exact List.mem_cons_self _ _
  · exact List.mem_cons_of_mem _ (List.mem_map_of_mem Prod.fst h1)

theorem nodup_mkeys_mset {α : Type} {m : SMap α} {k : String} (v : α)
    (h : (mkeys m).Nodup) : (mkeys (mset m k v)).Nodup := by
  induction m with
  | nil => simp [mset, mkeys]
  | cons hd tl ih =>
    obtain ⟨k', v'⟩ := hd
    simp only [mkeys, List.map_cons, List.nodup_cons] at h
    by_cases h0 : k' = k
    · subst h0
      simpa [mset, mkeys, List.nodup_cons] using h
    · simp only [mset, if_neg h0, mkeys, List.map_cons, List.nodup_cons]
      refine ⟨fun hc => ?_, ih h.2⟩
      rcases List.mem_cons.mp (mkeys_mset_subset tl k v hc) with hc | hc
      · exact h0 hc
      · exact h.1 hc


theorem mget_some_mem {α : Type} {m : SMap α} {k : String} {v : α}
    (h : mget m k = some v) : (k, v) ∈ m := by
  induction m with
  | nil => simp [mget] at h
  | cons hd tl ih =>
    obtain ⟨k', v'⟩ := hd
    by_cases h0 : k' = k
    · subst h0
      simp only [mget, eq_self_iff_true, if_true, Option.some.injEq] at h
      subst h
      exact List.mem_cons_self _ _
    · simp only [mget, if_neg h0] at h
      exact List.mem_cons_of_mem _ (ih h)

theorem mdel_sublist {α : Type} (m : SMap α) (k : String) :
    (mdel m k).Sublist m := by
  induction m with
  | nil => simp [mdel]
  | cons hd tl ih =>
    obtain ⟨k', v'⟩ := hd
    by_cases h : k' = k
    · simp only [mdel, if_pos h]
      exact (List.sublist_cons_self _ _)
    · simp only [mdel, if_neg h]
      exact ih.cons₂ _

theorem nodup_mkeys_mdel {α : Type} {m : SMap α} (k : String)
    (h : (mkeys m).Nodup) : (mkeys (mdel m k)).Nodup :=
  ((mdel_sublist m k).map Prod.fst).nodup h

theorem mget_mdel_self_of_nodup {α : Type} {m : SMap α} {k : String}
    (h : (mkeys m).Nodup) : mget (mdel m k) k = none := by
  induction m with
  | nil => simp [mdel, mget]
  | cons hd tl ih =>
    obtain ⟨k', v'⟩ := hd
    simp only [mkeys, List.map_cons, List.nodup_cons] at h
    by_cases h0 : k' = k
    · subst h0
      simp only [mdel, eq_self_iff_true, if_true]
      exact mget_eq_none_of_not_mem_mkeys h.1
    · simp only [mdel, if_neg h0, mget, if_neg h0]
      exact ih h.2

theorem mvalues_mset_of_none {α : Type} {m : SMap α} {k : String} (v : α)
    (h : mget m k = none) : mvalues (mset m k v) = mvalues m ++ [v] := by
  induction m with
  | nil => simp [mset, mvalues]
  | cons hd tl ih =>
    obtain ⟨k', v'⟩ := hd
    by_cases h0 : k' = k
    · simp [mget, h0] at h
    · simp only [mget, if_neg h0] at h
      simp only [mset, if_neg h0, mvalues, List.map_cons, List.cons_append,
        List.cons.injEq, true_and]
      simpa [mvalues] using ih h

theorem countP_mvalues_mset_of_some {α : Type} {m : SMap α} {k : String}
    {w : α} (v : α) (q : α → Bool) (h : mget m k = some w) :
    (mvalues (mset m k v)).countP q + (if q w then 1 else 0)
      = (mvalues m).countP q + (if q v then 1 else 0) := by
  induction m with
  | nil => simp [mget] at h
  | cons hd tl ih =>
    obtain ⟨k', v'⟩ := hd
    by_cases h0 : k' = k
    · subst h0
      simp only [mget, eq_self_iff_true, if_true, Option.some.injEq] at h
      subst h
      simp only [mset, eq_self_iff_true, if_true, mvalues, List.map_cons,
        List.countP_cons]
      omega
    · simp only [mget, if_neg h0] at h
      simp only [mset, if_neg h0, mvalues, List.map_cons, List.countP_cons]
      have := ih h
      simp only [mvalues] at this
      omega

theorem countP_mvalues_mdel_le {α : Type} (m : SMap α) (k : String)
    (q : α → Bool) :
    (mvalues (mdel m k)).countP q ≤ (mvalues m).countP q :=
  ((mdel_sublist m k).map Prod.snd).countP_le q

theorem contains_iff_mem_str {l : List String} {a : String} :
    l.contains a = true ↔ a ∈ l := by
  simp [List.contains_iff_exists_mem_beq, beq_iff_eq, eq_comm]

theorem roomLifeInv_join (roomId pid pname : String) (s : SysState)
    (j l n : Nat) (hInv : RoomLifeInv roomId s j l n)
    (hok : roomOpOk s roomId (RoomOp.join pid pname) = true) :
    RoomLifeInv roomId (applyRoomOp s roomId (RoomOp.join pid pname))
      (j + 1) l (n + 1) := by
  obtain ⟨hnd, hcase⟩ := hInv
  rcases hcase with ⟨room0, hr0, hlen, _, hro, hnc⟩ | ⟨_, _, hnone, _⟩
  · by_cases hp : mhas room0.peers pid = true
    · exfalso
      simp only [roomOpOk] at hok
      unfold joinRoom at hok
      simp [hr0, hp, exOk] at hok
    · have hpn : mget room0.peers pid = none := by
        cases hq : mget room0.peers pid with
        | none => rfl
        | some w => exact absurd (by simp [mhas, hq]) hp
      have hstep : applyRoomOp s roomId (RoomOp.join pid pname)
          = { s with rooms := mset s.rooms roomId ({ room0 with peers := mset room0.peers pid { id := pid, name := pname, transports := [], producers := [], consumers := [] } }) } := by
        simp only [applyRoomOp]
        unfold joinRoom
        simp [hr0, hp]
      rw [hstep]
      refine ⟨nodup_mkeys_mset _ hnd,
        Or.inl ⟨_, mget_mset_self _ _ _, ?_, ?_, hro, hnc⟩⟩
      · simp only [length_mset_of_none _ hpn]
        omega
      · right
        simp [length_mset_of_none _ hpn]
  · exfalso
    simp only [roomOpOk] at hok
    unfold joinRoom at hok
    simp [hnone, exOk] at hok

theorem roomLifeInv_leave (roomId pid : String) (s : SysState)
    (j l n : Nat) (hInv : RoomLifeInv roomId s j l n)
    (hok : roomOpOk s roomId (RoomOp.leave pid) = true) :
    RoomLifeInv roomId (applyRoomOp s roomId (RoomOp.leave pid))
      j (l + 1) (n + 1) := by
  obtain ⟨hnd, hcase⟩ := hInv
  rcases hcase with ⟨room0, hr0, hlen, _, hro, hnc⟩ | ⟨_, _, hnone, _⟩
  · cases hp : mget room0.peers pid with
    | none =>
      exfalso
      simp only [roomOpOk] at hok
      unfold leaveRoom at hok
      simp [hr0, hp] at hok
    | some peer =>
      have hlen1 : (mdel room0.peers pid).length + 1 = room0.peers.length :=
        length_mdel_of_some hp
      by_cases hz : (mdel room0.peers pid).length = 0
      · have hstep : applyRoomOp s roomId (RoomOp.leave pid)
            = { s with rooms := mdel s.rooms roomId,
                       routers := s.routers.erase roomId,
                       closedRouters := roomId :: s.closedRouters } := by
          simp only [applyRoomOp]
          unfold leaveRoom
          simp only [hr0, hp]
          unfold removeRouter
          simp [hz, hro, contains_iff_mem_str.mpr hro, mdel_mset_same]
        rw [hstep]
        refine ⟨nodup_mkeys_mdel roomId hnd, Or.inr ⟨by omega, by omega, ?_, ?_⟩⟩
        · exact mget_mdel_self_of_nodup hnd
        · simp
      · have hstep : applyRoomOp s roomId (RoomOp.leave pid)
            = { s with rooms := mset s.rooms roomId ({ room0 with peers := mdel room0.peers pid }) } := by
          simp only [applyRoomOp]
          unfold leaveRoom
          simp [hr0, hp, hz]
        rw [hstep]
        refine ⟨nodup_mkeys_mset _ hnd,
          Or.inl ⟨_, mget_mset_self _ _ _, ?_, ?_, hro, hnc⟩⟩
        · simp only
          omega
        · right
          simpa using Nat.pos_of_ne_zero hz
  · exfalso
    simp only [roomOpOk] at hok
    unfold leaveRoom at hok
    simp [hnone] at hok

theorem roomLifeInv_ops (roomId : String) (ops : List RoomOp) :
    ∀ (s : SysState) (j l n : Nat), RoomLifeInv roomId s j l n →
      roomOpsOk s roomId ops = true →
      RoomLifeInv roomId (applyRoomOps s roomId ops)
        (j + joinCount ops) (l + leaveCount ops) (n + ops.length) := by
  induction ops with
  | nil =>
    intro s j l n hInv _
    simpa [applyRoomOps, joinCount, leaveCount] using hInv
  | cons op rest ih =>
    intro s j l n hInv hok
    simp only [roomOpsOk, Bool.and_eq_true] at hok
    cases op with
    | join pid pname =>
      have e1 : j + joinCount (RoomOp.join pid pname :: rest)
          = (j + 1) + joinCount rest := by
        simp [joinCount, List.countP_cons]; omega
      have e2 : l + leaveCount (RoomOp.join pid pname :: rest)
          = l + leaveCount rest := by
        simp [leaveCount, List.countP_cons]
      have e3 : n + (RoomOp.join pid pname :: rest).length
          = (n + 1) + rest.length := by
        simp [List.length_cons]; omega
      rw [show applyRoomOps s roomId (RoomOp.join pid pname :: rest)
          = applyRoomOps (applyRoomOp s roomId (RoomOp.join pid pname)) roomId
              rest from rfl, e1, e2, e3]
      exact ih _ _ _ _ (roomLifeInv_join roomId pid pname s j l n hInv hok.1)
        hok.2
    | leave pid =>
      have e1 : j + joinCount (RoomOp.leave pid :: rest)
          = j + joinCount rest := by
        simp [joinCount, List.countP_cons]
      have e2 : l + leaveCount (RoomOp.leave pid :: rest)
          = (l + 1) + leaveCount rest := by
        simp [leaveCount, List.countP_cons]; omega
      have e3 : n + (RoomOp.leave pid :: rest).length
          = (n + 1) + rest.length := by
        simp [List.length_cons]; omega
      rw [show applyRoomOps s roomId (RoomOp.leave pid :: rest)
          = applyRoomOps (applyRoomOp s roomId (RoomOp.leave pid)) roomId
              rest from rfl, e1, e2, e3]
      exact ih _ _ _ _ (roomLifeInv_leave roomId pid s j l n hInv hok.1) hok.2

/-- C1: for every room and every finite sequence of successful `joinRoom`
and `leaveRoom` operations applied to it (starting from the freshly created
room, which has an empty peer map, a registered open router, and
duplicate-free registry keys), the room's peer map size after the sequence
equals the number of joins minus the number of leaves, and the room is torn
down — removed from the registry with its router closed — exactly when the
sequence is nonempty and brings that count (back) to zero, which only a
leave emptying the room can do. -/
theorem joins_minus_leaves_and_teardown
    (s : SysState) (roomId : String) (room : RoomInfo) (ops : List RoomOp)
    (hroom : mget s.rooms roomId = some room) (hempty : room.peers = [])
    (hnodup : (mkeys s.rooms).Nodup)
    (hrouter : roomId ∈ s.routers) (hnc : roomId ∉ s.closedRouters)
    (hok : roomOpsOk s roomId ops = true) :
    peerCount (applyRoomOps s roomId ops) roomId + leaveCount ops
      = joinCount ops
    ∧ (roomTornDown (applyRoomOps s roomId ops) roomId
        ↔ joinCount ops = leaveCount ops ∧ ops ≠ []) := by
  have hbase : RoomLifeInv roomId s 0 0 0 :=
    ⟨hnodup, Or.inl ⟨room, hroom, by simp [hempty], Or.inl rfl, hrouter, hnc⟩⟩
  have hfin := roomLifeInv_ops roomId ops s 0 0 0 hbase hok
  simp only [Nat.zero_add] at hfin
  obtain ⟨_, hfin⟩ := hfin
  rcases hfin with ⟨room', hr, hlen, hpos, _, hnc'⟩ | ⟨hje, hn, hnone, hcr⟩
  · constructor
    · simpa [peerCount, hr] using hlen
    · constructor
      · intro ht
        obtain ⟨h1, _⟩ := ht
        rw [h1] at hr
        cases hr
      · rintro ⟨hje, hne⟩
        exfalso
        rcases hpos with hpos | hpos
        · exact hne (List.length_eq_zero.mp hpos)
        · omega
  · constructor
    · simp only [peerCount, hnone]
      omega
    · constructor
      · intro _
        exact ⟨hje, fun he => by simp [he] at hn⟩
      · intro _
        exact ⟨hnone, hcr⟩

theorem joins_minus_leaves_and_teardown_witness :
    peerCount (applyRoomOps (createRoom initState "r1" "demo" true).2 "r1"
        [RoomOp.join "p1" "Alice", RoomOp.leave "p1"]) "r1"
      + leaveCount [RoomOp.join "p1" "Alice", RoomOp.leave "p1"]
      = joinCount [RoomOp.join "p1" "Alice", RoomOp.leave "p1"]
    ∧ (roomTornDown (applyRoomOps (createRoom initState "r1" "demo" true).2
          "r1" [RoomOp.join "p1" "Alice", RoomOp.leave "p1"]) "r1"
        ↔ joinCount [RoomOp.join "p1" "Alice", RoomOp.leave "p1"]
            = leaveCount [RoomOp.join "p1" "Alice", RoomOp.leave "p1"]
          ∧ ([RoomOp.join "p1" "Alice", RoomOp.leave "p1"] : List RoomOp) ≠ []) :=
  joins_minus_leaves_and_teardown (createRoom initState "r1" "demo" true).2
    "r1"
    { id := "r1", name := "demo", peers := [],
      recording := { isRecording := false, recordingId := none,
                     startTime := none, filePath := none } }
    [RoomOp.join "p1" "Alice", RoomOp.leave "p1"]
    (by decide) (by decide) (by decide) (by decide) (by decide) (by decide)

/-- C7: whenever a peer successfully leaves a room (leave or disconnect),
`leaveRoom` returns `true` and its side-effect trace closes every transport,
every producer and every consumer owned by that peer strictly before the
peer's removal from the room's peer map, so no media-engine resource owned
by a removed peer remains open. -/
theorem leaveRoom_closes_owned_resources_before_removal
    (s : SysState) (roomId peerId : String) (room : RoomInfo)
    (peer : PeerInfo) (hroom : mget s.rooms roomId = some room)
    (hpeer : mget room.peers peerId = some peer) :
    (leaveRoom s roomId peerId).1 = true
    ∧ ∃ pre post, (leaveRoom s roomId peerId).2.2
        = pre ++ REvent.removedPeer roomId peerId :: post
      ∧ (∀ tid ∈ mkeys peer.transports, REvent.closedTransport tid ∈ pre)
      ∧ (∀ prodId ∈ mkeys peer.producers, REvent.closedProducer prodId ∈ pre)
      ∧ (∀ cid ∈ mkeys peer.consumers, REvent.closedConsumer cid ∈ pre) := by
  have hshape : ∃ post, (leaveRoom s roomId peerId).1 = true
      ∧ (leaveRoom s roomId peerId).2.2
        = ((mkeys peer.transports).map REvent.closedTransport
            ++ (mkeys peer.producers).map REvent.closedProducer
            ++ (mkeys peer.consumers).map REvent.closedConsumer)
          ++ REvent.removedPeer roomId peerId :: post := by
    by_cases hz : (mdel room.peers peerId).length = 0
    · by_cases hmem : roomId ∈ s.routers
      · refine ⟨[REvent.closedRouter roomId] ++ [REvent.removedRoom roomId],
          ?_, ?_⟩ <;>
          simp [leaveRoom, hroom, hpeer, hz, removeRouter,
            contains_iff_mem_str.mpr hmem, hmem]
      · refine ⟨[] ++ [REvent.removedRoom roomId], ?_, ?_⟩ <;>
          simp [leaveRoom, hroom, hpeer, hz, removeRouter, hmem]
    · refine ⟨[], ?_, ?_⟩ <;> simp [leaveRoom, hroom, hpeer, hz]
  obtain ⟨post, h1, h2⟩ := hshape
  refine ⟨h1, _, post, h2, ?_, ?_, ?_⟩
  · intro tid ht
    simp [List.mem_append]
    exact ht
  · intro prodId hp
    simp [List.mem_append]
    exact hp
  · intro cid hc
    simp [List.mem_append]
    exact hc

theorem leaveRoom_closes_owned_resources_witness :
    (leaveRoom
      { rooms := [("r1",
          { id := "r1", name := "demo",
            peers := [("p1",
              { id := "p1", name := "Alice",
                transports := [("t1", { id := "t1", appDataDirection := none })],
                producers := [("pr1", { id := "pr1", kind := "video" })],
                consumers := [("c1", { id := "c1", producerId := "pr2", paused := true })] })],
            recording := { isRecording := false, recordingId := none,
                           startTime := none, filePath := none } })],
        routers := ["r1"], closedRouters := [], recordings := [],
        activeRecorders := [], usedRoomIds := ["r1"] } "r1" "p1").1 = true :=
  (leaveRoom_closes_owned_resources_before_removal
    { rooms := [("r1",
        { id := "r1", name := "demo",
          peers := [("p1",
            { id := "p1", name := "Alice",
              transports := [("t1", { id := "t1", appDataDirection := none })],
              producers := [("pr1", { id := "pr1", kind := "video" })],
              consumers := [("c1", { id := "c1", producerId := "pr2", paused := true })] })],
          recording := { isRecording := false, recordingId := none,
                         startTime := none, filePath := none } })],
      routers := ["r1"], closedRouters := [], recordings := [],
      activeRecorders := [], usedRoomIds := ["r1"] } "r1" "p1"
    { id := "r1", name := "demo",
      peers := [("p1",
        { id := "p1", name := "Alice",
          transports := [("t1", { id := "t1", appDataDirection := none })],
          producers := [("pr1", { id := "pr1", kind := "video" })],
          consumers := [("c1", { id := "c1", producerId := "pr2", paused := true })] })],
      recording := { isRecording := false, recordingId := none,
                     startTime := none, filePath := none } }
    { id := "p1", name := "Alice",
      transports := [("t1", { id := "t1", appDataDirection := none })],
      producers := [("pr1", { id := "pr1", kind := "video" })],
      consumers := [("c1", { id := "c1", producerId := "pr2", paused := true })] }
    (by decide) (by decide)).1

/-- C10: `leaveRoom` on an unknown room or a peer not present in the room's
peer map returns `false` with the registry unchanged and an empty
side-effect trace (nothing closed, nothing removed); and it returns `true`
only when the peer was actually present, in which case the peer is no
longer in the registry afterwards. -/
theorem leaveRoom_miss_noop_and_true_removes (s : SysState)
    (roomId peerId : String) :
    (getPeer s roomId peerId = none →
      leaveRoom s roomId peerId = (false, s, []))
    ∧ ((leaveRoom s roomId peerId).1 = true →
        (getPeer s roomId peerId).isSome = true)
    ∧ ((mkeys s.rooms).Nodup →
        ∀ room, mget s.rooms roomId = some room →
          (mkeys room.peers).Nodup →
          (leaveRoom s roomId peerId).1 = true →
          getPeer (leaveRoom s roomId peerId).2.1 roomId peerId = none) := by
  refine ⟨?_, ?_, ?_⟩
  · intro hmiss
    cases hr : mget s.rooms roomId with
    | none => simp [leaveRoom, hr]
    | some room =>
      unfold getPeer at hmiss
      rw [hr] at hmiss
      simp only at hmiss
      simp [leaveRoom, hr, hmiss]
  · intro htrue
    cases hr : mget s.rooms roomId with
    | none => simp [leaveRoom, hr] at htrue
    | some room =>
      cases hp : mget room.peers peerId with
      | none => simp [leaveRoom, hr, hp] at htrue
      | some peer => simp [getPeer, hr, hp]
  · intro hnd room hr hndp _
    cases hp : mget room.peers peerId with
    | none => simp [getPeer, leaveRoom, hr, hp]
    | some peer =>
      by_cases hz : (mdel room.peers peerId).length = 0
      · by_cases hmem : roomId ∈ s.routers
        · simp [getPeer, leaveRoom, hr, hp, hz, removeRouter, hmem,
            mdel_mset_same, mget_mdel_self_of_nodup hnd]
        · simp [getPeer, leaveRoom, hr, hp, hz, removeRouter, hmem,
            mdel_mset_same, mget_mdel_self_of_nodup hnd]
      · simp [getPeer, leaveRoom, hr, hp, hz, mget_mset_self,
          mget_mdel_self_of_nodup hndp]

theorem leaveRoom_miss_noop_witness :
    leaveRoom initState "nope" "p1" = (false, initState, []) :=
  (leaveRoom_miss_noop_and_true_removes initState "nope" "p1").1 (by decide)

theorem mget_mdel_ne {α : Type} (m : SMap α) {k r : String} (h : r ≠ k) :
    mget (mdel m k) r = mget m r := by
  induction m with
  | nil => simp [mdel]
  | cons hd tl ih =>
    obtain ⟨k', v'⟩ := hd
    by_cases h0 : k' = k
    · subst h0
      simp only [mdel, eq_self_iff_true, if_true, mget]
      rw [if_neg (show ¬k' = r from fun he => h he.symm)]
    · simp only [mdel, if_neg h0, mget]
      by_cases h1 : k' = r <;> simp [h1, ih]

theorem recMutexInv_transfer {s s' : SysState}
    (hcount : ∀ r, recCount s' r ≤ recCount s r)
    (hflag : ∀ r, flagOf s' r = flagOf s r ∨ flagOf s' r = none)
    (hused : ∀ x, x ∈ s.usedRoomIds → x ∈ s'.usedRoomIds)
    (hInv : RecMutexInv s) : RecMutexInv s' := by
  intro r
  obtain ⟨h1, h2, h3, h4⟩ := hInv r
  refine ⟨le_trans (hcount r) h1, ?_, ?_, ?_⟩
  · intro hf
    rcases hflag r with he | he
    · rw [he] at hf
      have h0 := h2 hf
      have := hcount r
      omega
    · rw [he] at hf
      cases hf
  · intro hge
    exact hused r (h3 (le_trans hge (hcount r)))
  · intro hne
    rcases hflag r with he | he
    · rw [he] at hne
      exact hused r (h4 hne)
    · exact absurd he hne

theorem setPeer_fields (s : SysState) (roomId pid : String)
    (peer : PeerInfo) :
    (setPeer s roomId pid peer).recordings = s.recordings
    ∧ (setPeer s roomId pid peer).usedRoomIds = s.usedRoomIds
    ∧ (setPeer s roomId pid peer).activeRecorders = s.activeRecorders
    ∧ (setPeer s roomId pid peer).routers = s.routers
    ∧ (setPeer s roomId pid peer).closedRouters = s.closedRouters := by
  unfold setPeer
  cases mget s.rooms roomId <;> exact ⟨rfl, rfl, rfl, rfl, rfl⟩

theorem flagOf_setPeer (s : SysState) (roomId pid : String) (peer : PeerInfo)
    (r : String) : flagOf (setPeer s roomId pid peer) r = flagOf s r := by
  unfold setPeer
  cases hm : mget s.rooms roomId with
  | none => rfl
  | some room =>
    by_cases he : roomId = r
    · subst he
      simp [flagOf, mget_mset_self, hm]
    · simp [flagOf, mget_mset_ne _ _ _ _ he]

theorem nodup_setPeer (s : SysState) (roomId pid : String) (peer : PeerInfo)
    (h : (mkeys s.rooms).Nodup) :
    (mkeys (setPeer s roomId pid peer).rooms).Nodup := by
  unfold setPeer
  cases mget s.rooms roomId with
  | none => exact h
  | some room => exact nodup_mkeys_mset _ h

theorem joinRoom_fields (s : SysState) (roomId pid pname : String) :
    (joinRoom s roomId pid pname).2.recordings = s.recordings
    ∧ (joinRoom s roomId pid pname).2.usedRoomIds = s.usedRoomIds
    ∧ (joinRoom s roomId pid pname).2.activeRecorders = s.activeRecorders
    ∧ (joinRoom s roomId pid pname).2.routers = s.routers
    ∧ (joinRoom s roomId pid pname).2.closedRouters = s.closedRouters := by
  unfold joinRoom
  cases mget s.rooms roomId with
  | none => exact ⟨rfl, rfl, rfl, rfl, rfl⟩
  | some room => by_cases hp : mhas room.peers pid = true <;> simp [hp]

theorem flagOf_joinRoom (s : SysState) (roomId pid pname r : String) :
    flagOf (joinRoom s roomId pid pname).2 r = flagOf s r := by
  unfold joinRoom
  cases hm : mget s.rooms roomId with
  | none => rfl
  | some room =>
    by_cases hp : mhas room.peers pid = true
    · simp [hp]
    · by_cases he : roomId = r
      · subst he
        simp [hp, flagOf, mget_mset_self, hm]
      · simp [hp, flagOf, mget_mset_ne _ _ _ _ he]

theorem nodup_joinRoom (s : SysState) (roomId pid pname : String)
    (h : (mkeys s.rooms).Nodup) :
    (mkeys (joinRoom s roomId pid pname).2.rooms).Nodup := by
  unfold joinRoom
  cases mget s.rooms roomId with
  | none => exact h
  | some room =>
    by_cases hp : mhas room.peers pid = true
    · simpa [hp] using h
    · simpa [hp] using nodup_mkeys_mset (m := s.rooms) _ h

theorem leaveRoom_fields (s : SysState) (roomId pid : String) :
    (leaveRoom s roomId pid).2.1.recordings = s.recordings
    ∧ (leaveRoom s roomId pid).2.1.usedRoomIds = s.usedRoomIds
    ∧ (leaveRoom s roomId pid).2.1.activeRecorders = s.activeRecorders := by
  cases hr : mget s.rooms roomId with
  | none => simp [leaveRoom, hr]
  | some room =>
    cases hp : mget room.peers pid with
    | none => simp [leaveRoom, hr, hp]
    | some peer =>
      by_cases hz : (mdel room.peers pid).length = 0
      · by_cases hmem : roomId ∈ s.routers <;>
          simp [leaveRoom, hr, hp, hz, removeRouter, hmem]
      · simp [leaveRoom, hr, hp, hz]

theorem flagOf_leaveRoom (s : SysState) (roomId pid : String)
    (hnd : (mkeys s.rooms).Nodup) (r : String) :
    flagOf (leaveRoom s roomId pid).2.1 r = flagOf s r
    ∨ flagOf (leaveRoom s roomId pid).2.1 r = none := by
  cases hr : mget s.rooms roomId with
  | none => left; simp [leaveRoom, hr]
  | some room =>
    cases hp : mget room.peers pid with
    | none => left; simp [leaveRoom, hr, hp]
    | some peer =>
      by_cases hz : (mdel room.peers pid).length = 0
      · by_cases he : roomId = r
        · subst he
          right
          by_cases hmem : roomId ∈ s.routers <;>
            simp [leaveRoom, hr, hp, hz, removeRouter, hmem, flagOf,
              mdel_mset_same, mget_mdel_self_of_nodup hnd]
        · left
          by_cases hmem : roomId ∈ s.routers <;>
            simp [leaveRoom, hr, hp, hz, removeRouter, hmem, flagOf,
              mdel_mset_same, mget_mdel_ne _ (fun hh => he hh.symm)]
      · by_cases he : roomId = r
        · subst he
          left
          simp [leaveRoom, hr, hp, hz, flagOf, mget_mset_self]
        · left
          simp [leaveRoom, hr, hp, hz, flagOf, mget_mset_ne _ _ _ _ he]

theorem nodup_leaveRoom (s : SysState) (roomId pid : String)
    (hnd : (mkeys s.rooms).Nodup) :
    (mkeys (leaveRoom s roomId pid).2.1.rooms).Nodup := by
  cases hr : mget s.rooms roomId with
  | none => simpa [leaveRoom, hr] using hnd
  | some room =>
    cases hp : mget room.peers pid with
    | none => simpa [leaveRoom, hr, hp] using hnd
    | some peer =>
      by_cases hz : (mdel room.peers pid).length = 0
      · have : (mkeys (mdel s.rooms roomId)).Nodup := nodup_mkeys_mdel _ hnd
        by_cases hmem : roomId ∈ s.routers <;>
          simpa [leaveRoom, hr, hp, hz, removeRouter, hmem,
            mdel_mset_same] using this
      · simpa [leaveRoom, hr, hp, hz] using
          nodup_mkeys_mset (m := s.rooms) _ hnd

theorem updateStatus_fields (s : SysState) (roomId : String) (b : Bool)
    (recId fp : Option String) (now : Nat) :
    (updateRoomRecordingStatus s roomId b recId fp now).recordings
        = s.recordings
    ∧ (updateRoomRecordingStatus s roomId b recId fp now).usedRoomIds
        = s.usedRoomIds
    ∧ (updateRoomRecordingStatus s roomId b recId fp now).activeRecorders
        = s.activeRecorders
    ∧ (updateRoomRecordingStatus s roomId b recId fp now).routers
        = s.routers
    ∧ (updateRoomRecordingStatus s roomId b recId fp now).closedRouters
        = s.closedRouters := by
  unfold updateRoomRecordingStatus
  cases mget s.rooms roomId <;> exact ⟨rfl, rfl, rfl, rfl, rfl⟩

theorem flagOf_updateStatus_ne (s : SysState) (roomId : String) (b : Bool)
    (recId fp : Option String) (now : Nat) {r : String} (h : roomId ≠ r) :
    flagOf (updateRoomRecordingStatus s roomId b recId fp now) r
      = flagOf s r := by
  unfold updateRoomRecordingStatus
  cases hm : mget s.rooms roomId with
  | none => rfl
  | some room => simp [flagOf, mget_mset_ne _ _ _ _ h]

theorem flagOf_updateStatus_self (s : SysState) (roomId : String) (b : Bool)
    (recId fp : Option String) (now : Nat) (room : RoomInfo)
    (hm : mget s.rooms roomId = some room) :
    flagOf (updateRoomRecordingStatus s roomId b recId fp now) roomId
      = some b := by
  unfold updateRoomRecordingStatus
  simp [hm, flagOf, mget_mset_self]

theorem nodup_updateStatus (s : SysState) (roomId : String) (b : Bool)
    (recId fp : Option String) (now : Nat)
    (h : (mkeys s.rooms).Nodup) :
    (mkeys (updateRoomRecordingStatus s roomId b recId fp now).rooms).Nodup := by
  unfold updateRoomRecordingStatus
  cases mget s.rooms roomId with
  | none => exact h
  | some room => exact nodup_mkeys_mset _ h

theorem transportsClean_rooms_mset {rooms : SMap RoomInfo} {roomId : String}
    {room' : RoomInfo}
    (hc : ∀ rp : String × RoomInfo, rp ∈ rooms →
      ∀ pp : String × PeerInfo, pp ∈ rp.2.peers → peerClean pp.2)
    (hroom' : ∀ pp : String × PeerInfo, pp ∈ room'.peers → peerClean pp.2) :
    ∀ rp : String × RoomInfo, rp ∈ mset rooms roomId room' →
      ∀ pp : String × PeerInfo, pp ∈ rp.2.peers → peerClean pp.2 := by
  intro rp hrp pp hpp
  rcases mem_mset hrp with h | h
  · subst h
    exact hroom' pp hpp
  · exact hc rp h pp hpp

theorem peersClean_of_mget {s : SysState} (hC : TransportsClean s)
    {roomId : String} {room : RoomInfo}
    (hm : mget s.rooms roomId = some room) :
    ∀ pp : String × PeerInfo, pp ∈ room.peers → peerClean pp.2 :=
  fun pp hpp => hC (roomId, room) (mget_some_mem hm) pp hpp

theorem peerClean_of_mget {s : SysState} (hC : TransportsClean s)
    {roomId pid : String} {peer : PeerInfo}
    (h : getPeer s roomId pid = some peer) : peerClean peer := by
  unfold getPeer at h
  cases hm : mget s.rooms roomId with
  | none => rw [hm] at h; cases h
  | some room =>
    rw [hm] at h
    simp only at h
    exact peersClean_of_mget hC hm (pid, peer) (mget_some_mem h)

theorem transportsClean_updateStatus (s : SysState) (roomId : String)
    (b : Bool) (recId fp : Option String) (now : Nat)
    (htc : TransportsClean s) :
    TransportsClean (updateRoomRecordingStatus s roomId b recId fp now) := by
  unfold updateRoomRecordingStatus
  cases hm : mget s.rooms roomId with
  | none => exact htc
  | some room =>
    intro rp hrp pp hpp
    rcases mem_mset hrp with h | h
    · subst h
      exact peersClean_of_mget htc hm pp hpp
    · exact htc rp h pp hpp

theorem transportsClean_setPeer {s : SysState} (htc : TransportsClean s)
    {roomId pid : String} {peer' : PeerInfo} (hp : peerClean peer') :
    TransportsClean (setPeer s roomId pid peer') := by
  unfold setPeer
  cases hm : mget s.rooms roomId with
  | none => exact htc
  | some room =>
    intro rp hrp pp hpp
    rcases mem_mset hrp with h | h
    · subst h
      rcases mem_mset hpp with h2 | h2
      · subst h2
        exact hp
      · exact peersClean_of_mget htc hm pp h2
    · exact htc rp h pp hpp

theorem sysInv_setPeer {s : SysState} (hInv : SysInv s)
    {roomId pid : String} {peer' : PeerInfo} (hp : peerClean peer') :
    SysInv (setPeer s roomId pid peer') := by
  obtain ⟨hnr, hnc, hmx, htc⟩ := hInv
  refine ⟨nodup_setPeer _ _ _ _ hnr, ?_, ?_, transportsClean_setPeer htc hp⟩
  · rw [(setPeer_fields s roomId pid peer').1]
    exact hnc
  · refine recMutexInv_transfer ?_ ?_ ?_ hmx
    · intro r
      simp [recCount, (setPeer_fields s roomId pid peer').1]
    · intro r
      left
      exact flagOf_setPeer _ _ _ _ _
    · intro x hx
      rw [(setPeer_fields s roomId pid peer').2.1]
      exact hx

theorem sysInv_joinRoom (s : SysState) (roomId pid pname : String)
    (hInv : SysInv s) : SysInv (joinRoom s roomId pid pname).2 := by
  obtain ⟨hnr, hnc, hmx, htc⟩ := hInv
  refine ⟨nodup_joinRoom _ _ _ _ hnr, ?_, ?_, ?_⟩
  · rw [(joinRoom_fields s roomId pid pname).1]
    exact hnc
  · refine recMutexInv_transfer ?_ ?_ ?_ hmx
    · intro r
      simp [recCount, (joinRoom_fields s roomId pid pname).1]
    · intro r
      left
      exact flagOf_joinRoom _ _ _ _ _
    · intro x hx
      rw [(joinRoom_fields s roomId pid pname).2.1]
      exact hx
  · unfold joinRoom
    cases hm : mget s.rooms roomId with
    | none => exact htc
    | some room =>
      by_cases hp : mhas room.peers pid = true
      · simpa [hp] using htc
      · dsimp only
        rw [if_neg hp]
        intro rp hrp pp hpp
        rcases mem_mset hrp with h | h
        · subst h
          rcases mem_mset hpp with h2 | h2
          · subst h2
            intro tp htp
            simp at htp
          · exact peersClean_of_mget htc hm pp h2
        · exact htc rp h pp hpp

theorem sysInv_leaveRoom (s : SysState) (roomId pid : String)
    (hInv : SysInv s) : SysInv (leaveRoom s roomId pid).2.1 := by
  obtain ⟨hnr, hnc, hmx, htc⟩ := hInv
  refine ⟨nodup_leaveRoom _ _ _ hnr, ?_, ?_, ?_⟩
  · rw [(leaveRoom_fields s roomId pid).1]
    exact hnc
  · refine recMutexInv_transfer ?_ ?_ ?_ hmx
    · intro r
      simp [recCount, (leaveRoom_fields s roomId pid).1]
    · intro r
      exact flagOf_leaveRoom s roomId pid hnr r
    · intro x hx
      rw [(leaveRoom_fields s roomId pid).2.1]
      exact hx
  · cases hr : mget s.rooms roomId with
    | none => simpa [leaveRoom, hr] using htc
    | some room =>
      cases hp : mget room.peers pid with
      | none => simpa [leaveRoom, hr, hp] using htc
      | some peer =>
        by_cases hz : (mdel room.peers pid).length = 0
        · by_cases hmem : roomId ∈ s.routers
          all_goals
            intro rp hrp pp hpp
          all_goals
            have hrp' : rp ∈ mdel (mset s.rooms roomId
                ({ room with peers := mdel room.peers pid })) roomId := by
              simpa [leaveRoom, hr, hp, hz, removeRouter, hmem] using hrp
          all_goals
            rcases mem_mset (mem_mdel hrp') with h | h
          · subst h
            exact peersClean_of_mget htc hr pp (mem_mdel hpp)
          · exact htc rp h pp hpp
          · subst h
            exact peersClean_of_mget htc hr pp (mem_mdel hpp)
          · exact htc rp h pp hpp
        · intro rp hrp pp hpp
          have hrp' : rp ∈ mset s.rooms roomId
              ({ room with peers := mdel room.peers pid }) := by
            simpa [leaveRoom, hr, hp, hz] using hrp
          rcases mem_mset hrp' with h | h
          · subst h
            exact peersClean_of_mget htc hr pp (mem_mdel hpp)
          · exact htc rp h pp hpp

theorem sysInv_createRoom (s : SysState) (roomId roomName : String)
    (routerOk : Bool) (hfresh : roomId ∉ s.usedRoomIds) (hInv : SysInv s) :
    SysInv (createRoom s roomId roomName routerOk).2 := by
  obtain ⟨hnr, hnc, hmx, htc⟩ := hInv
  cases routerOk with
  | false => exact ⟨hnr, hnc, hmx, htc⟩
  | true =>
    refine ⟨?_, ?_, ?_, ?_⟩
    · exact nodup_mkeys_mset _ hnr
    · exact hnc
    · intro r
      obtain ⟨h1, h2, h3, h4⟩ := hmx r
      have hcnt : recCount (createRoom s roomId roomName true).2 r
          = recCount s r := rfl
      by_cases he : roomId = r
      · subst he
        have hzero : recCount s roomId = 0 := by
          by_contra hne
          exact hfresh (h3 (Nat.one_le_iff_ne_zero.mpr hne))
        refine ⟨?_, ?_, ?_, ?_⟩
        · rw [hcnt]
          exact h1
        · intro _
          rw [hcnt]
          exact hzero
        · intro _
          exact List.mem_cons_self _ _
        · intro _
          exact List.mem_cons_self _ _
      · have hflag : flagOf (createRoom s roomId roomName true).2 r
            = flagOf s r := by
          simp [flagOf, createRoom, mget_mset_ne _ _ _ _ he]
        rw [hcnt, hflag]
        exact ⟨h1, h2, fun hge => List.mem_cons_of_mem _ (h3 hge),
          fun hne => List.mem_cons_of_mem _ (h4 hne)⟩
    · intro rp hrp pp hpp
      rcases mem_mset hrp with h | h
      · subst h
        simp at hpp
      · exact htc rp h pp hpp

theorem recCount_mset_fresh (s : SysState) (recId : String)
    (info : RecordingInfo) (hfresh : mget s.recordings recId = none)
    (s' : SysState) (hrec : s'.recordings = mset s.recordings recId info)
    (r : String) :
    recCount s' r = recCount s r
      + (if info.roomId == r && info.status == RecStatus.recording
         then 1 else 0) := by
  unfold recCount
  rw [hrec, mvalues_mset_of_none _ hfresh, List.countP_append]
  simp [List.countP_cons]

theorem countP_recording_mset_some (s : SysState) (recId : String)
    (r0 r1 : RecordingInfo) (hg : mget s.recordings recId = some r0)
    (hq1 : r1.status ≠ RecStatus.recording)
    (s' : SysState) (hrec : s'.recordings = mset s.recordings recId r1)
    (r : String) :
    recCount s' r
      + (if r0.roomId == r && r0.status == RecStatus.recording then 1 else 0)
      = recCount s r := by
  unfold recCount
  rw [hrec]
  have h2 := countP_mvalues_mset_of_some r1
    (fun info => info.roomId == r && info.status == RecStatus.recording) hg
  have hq1f : (r1.roomId == r && r1.status == RecStatus.recording) = false := by
    simp [hq1]
  simp only at h2
  simp only [hq1f, Bool.false_eq_true, if_false, Nat.add_zero] at h2
  simpa using h2

theorem sysInv_startRecording (s : SysState) (roomId recId fp : String)
    (now : Nat) (plainOk ffmpegOk : Bool)
    (hfresh : mget s.recordings recId = none) (hInv : SysInv s) :
    SysInv (startRecording s roomId recId fp now plainOk ffmpegOk).2 := by
  obtain ⟨hnr, hnc, hmx, htc⟩ := hInv
  unfold startRecording
  cases hm : mget s.rooms roomId with
  | none => exact ⟨hnr, hnc, hmx, htc⟩
  | some room =>
    dsimp only
    by_cases hrec : isRoomRecording s roomId = true
    · simp only [hrec, if_true]
      exact ⟨hnr, hnc, hmx, htc⟩
    · rw [if_neg hrec]
      by_cases hpl : plainOk = false
      · simp only [hpl, eq_self_iff_true, if_true]
        exact ⟨hnr, hnc, hmx, htc⟩
      · rw [if_neg hpl]
        by_cases hff : ffmpegOk = false
        · simp only [hff, eq_self_iff_true, if_true]
          exact ⟨hnr, hnc, hmx, htc⟩
        · rw [if_neg hff]
          dsimp only
          have hrecF : room.recording.isRecording = false := by
            unfold isRoomRecording at hrec
            rw [hm] at hrec
            simpa using hrec
          have hflagfalse : flagOf s roomId = some false := by
            simp [flagOf, hm, hrecF]
          have hroomused : roomId ∈ s.usedRoomIds :=
            (hmx roomId).2.2.2 (by simp [hflagfalse])
          have hzero : recCount s roomId = 0 := (hmx roomId).2.1 hflagfalse
          set info : RecordingInfo :=
            { id := recId, roomId := roomId, filePath := fp,
              startTime := now, endTime := none, status := RecStatus.recording,
              participants := mkeys room.peers } with hinfo
          set s1 : SysState :=
            { s with activeRecorders := sinsert s.activeRecorders recId,
                     recordings := mset s.recordings recId info } with hs1
          have hm1 : mget s1.rooms roomId = some room := hm
          have hfields := updateStatus_fields s1 roomId true (some recId)
            (some fp) now
          have hused : (updateRoomRecordingStatus s1 roomId true (some recId)
              (some fp) now).usedRoomIds = s.usedRoomIds := hfields.2.1
          refine ⟨?_, ?_, ?_, ?_⟩
          · exact nodup_updateStatus _ _ _ _ _ _ hnr
          · rw [hfields.1]
            exact nodup_mkeys_mset _ hnc
          · intro r
            obtain ⟨h1, h2, h3, h4⟩ := hmx r
            have hcnt : recCount (updateRoomRecordingStatus s1 roomId true
                (some recId) (some fp) now) r
                = recCount s r + (if info.roomId == r
                    && info.status == RecStatus.recording then 1 else 0) := by
              refine recCount_mset_fresh s recId info hfresh _ ?_ r
              rw [hfields.1]
            rw [hused]
            by_cases he : roomId = r
            · subst he
              have hcnt1 : recCount (updateRoomRecordingStatus s1 roomId true
                  (some recId) (some fp) now) roomId = 1 := by
                rw [hcnt, hzero]
                simp [hinfo]
              have hflag1 : flagOf (updateRoomRecordingStatus s1 roomId true
                  (some recId) (some fp) now) roomId = some true :=
                flagOf_updateStatus_self s1 roomId true (some recId) (some fp)
                  now room hm1
              refine ⟨by rw [hcnt1], ?_, ?_, ?_⟩
              · intro hf
                rw [hflag1] at hf
                simp at hf
              · intro _
                exact hroomused
              · intro _
                exact hroomused
            · have hcnt0 : recCount (updateRoomRecordingStatus s1 roomId true
                  (some recId) (some fp) now) r = recCount s r := by
                rw [hcnt]
                simp [hinfo, fun hh => he hh]
              have hflag0 : flagOf (updateRoomRecordingStatus s1 roomId true
                  (some recId) (some fp) now) r = flagOf s r :=
                flagOf_updateStatus_ne s1 roomId true (some recId) (some fp)
                  now he
              rw [hcnt0, hflag0]
              exact ⟨h1, h2, h3, h4⟩
          · exact transportsClean_updateStatus s1 roomId true (some recId)
              (some fp) now htc

theorem sysInv_stopRecording (s : SysState) (recId : String) (now : Nat)
    (hInv : SysInv s) : SysInv (stopRecording s recId now).2 := by
  obtain ⟨hnr, hnc, hmx, htc⟩ := hInv
  unfold stopRecording
  cases hg : mget s.recordings recId with
  | none => exact ⟨hnr, hnc, hmx, htc⟩
  | some r0 =>
    dsimp only
    by_cases hst : r0.status = RecStatus.recording
    · rw [if_neg (by simpa using hst)]
      dsimp only
      set r1 : RecordingInfo :=
        { r0 with endTime := some now, status := RecStatus.stopped } with hr1
      set s1 : SysState :=
        { s with activeRecorders := s.activeRecorders.erase recId,
                 recordings := mset s.recordings recId r1 } with hs1
      have hfields := updateStatus_fields s1 r0.roomId false none none now
      have hused : (updateRoomRecordingStatus s1 r0.roomId false none none
          now).usedRoomIds = s.usedRoomIds := hfields.2.1
      refine ⟨?_, ?_, ?_, ?_⟩
      · exact nodup_updateStatus _ _ _ _ _ _ hnr
      · rw [hfields.1]
        exact nodup_mkeys_mset _ hnc
      · intro r
        obtain ⟨h1, h2, h3, h4⟩ := hmx r
        have hcnt : recCount (updateRoomRecordingStatus s1 r0.roomId false
            none none now) r
            + (if r0.roomId == r && r0.status == RecStatus.recording
               then 1 else 0)
            = recCount s r := by
          refine countP_recording_mset_some s recId r0 r1 hg
            (by rw [hr1]; simp) _ ?_ r
          rw [hfields.1]
        rw [hused]
        by_cases he : r0.roomId = r
        · subst he
          have hq : (r0.roomId == r0.roomId
              && r0.status == RecStatus.recording) = true := by
            simp [hst]
          rw [hq] at hcnt
          simp at hcnt
          refine ⟨by omega, fun _ => by omega, fun hge => h3 (by omega), ?_⟩
          intro hne
          cases hmr : mget s.rooms r0.roomId with
          | none =>
            exfalso
            apply hne
            have hm1 : mget (updateRoomRecordingStatus s1 r0.roomId false
                none none now).rooms r0.roomId = none := by
              unfold updateRoomRecordingStatus
              rw [show mget s1.rooms r0.roomId = none from hmr]
              exact hmr
            simp [flagOf, hm1]
          | some room =>
            exact h4 (by simp [flagOf, hmr])
        · have hq : (r0.roomId == r && r0.status == RecStatus.recording)
              = false := by
            simp [he]
          rw [hq] at hcnt
          simp only [Bool.false_eq_true, if_false, Nat.add_zero] at hcnt
          have hflag0 : flagOf (updateRoomRecordingStatus s1 r0.roomId false
              none none now) r = flagOf s r :=
            flagOf_updateStatus_ne s1 r0.roomId false none none now he
          rw [hflag0,
            show recCount (updateRoomRecordingStatus s1 r0.roomId false
              none none now) r = recCount s r from by omega]
          exact ⟨h1, h2, h3, h4⟩
      · exact transportsClean_updateStatus s1 r0.roomId false none none now
          htc
    · rw [if_pos (by simpa using hst)]
      exact ⟨hnr, hnc, hmx, htc⟩


theorem countP_recording_replace (recs : SMap RecordingInfo)
    (recId : String) (r0 r1 : RecordingInfo) (hg : mget recs recId = some r0)
    (hq1 : r1.status ≠ RecStatus.recording) (r : String) :
    (mvalues (mset recs recId r1)).countP
        (fun info => info.roomId == r && info.status == RecStatus.recording)
      + (if r0.roomId == r && r0.status == RecStatus.recording then 1 else 0)
      = (mvalues recs).countP
        (fun info => info.roomId == r && info.status == RecStatus.recording) := by
  have h2 := countP_mvalues_mset_of_some r1
    (fun info => info.roomId == r && info.status == RecStatus.recording) hg
  have hq1f : (r1.roomId == r && r1.status == RecStatus.recording) = false := by
    simp [hq1]
  simp only at h2
  simp only [hq1f, Bool.false_eq_true, if_false, Nat.add_zero] at h2
  exact h2

theorem sysInv_ffmpegEnd (s : SysState) (recId : String) (hInv : SysInv s) :
    SysInv (ffmpegEnd s recId) := by
  obtain ⟨hnr, hnc, hmx, htc⟩ := hInv
  unfold ffmpegEnd
  dsimp only
  cases hg : mget s.recordings recId with
  | none => exact ⟨hnr, hnc, hmx, htc⟩
  | some r0 =>
    dsimp only
    by_cases hst : r0.status = RecStatus.stopped
    · rw [if_pos hst]
      refine ⟨hnr, nodup_mkeys_mset _ hnc, ?_, htc⟩
      refine recMutexInv_transfer ?_ ?_ ?_ hmx
      · intro r
        have hcnt := countP_recording_replace s.recordings recId r0
          ({ r0 with status := RecStatus.completed }) hg (by simp) r
        simp only [recCount]
        omega
      · intro r
        left
        rfl
      · intro x hx
        exact hx
    · rw [if_neg hst]
      exact ⟨hnr, hnc, hmx, htc⟩

theorem sysInv_ffmpegError (s : SysState) (recId : String) (hInv : SysInv s) :
    SysInv (ffmpegError s recId) := by
  obtain ⟨hnr, hnc, hmx, htc⟩ := hInv
  exact ⟨hnr, hnc, hmx, htc⟩

theorem sysInv_deleteRecording (s : SysState) (recId : String) (now : Nat)
    (hInv : SysInv s) : SysInv (deleteRecording s recId now).2 := by
  unfold deleteRecording
  cases hg : mget s.recordings recId with
  | none => exact hInv
  | some r0 =>
    dsimp only
    have hInv1 : SysInv (if r0.status = RecStatus.recording
        then (stopRecording s recId now).2 else s) := by
      by_cases hst : r0.status = RecStatus.recording
      · rw [if_pos hst]
        exact sysInv_stopRecording s recId now hInv
      · rw [if_neg hst]
        exact hInv
    obtain ⟨hnr, hnc, hmx, htc⟩ := hInv1
    refine ⟨hnr, nodup_mkeys_mdel _ hnc, ?_, htc⟩
    refine recMutexInv_transfer ?_ ?_ ?_ hmx
    · intro r
      simp only [recCount]
      exact countP_mvalues_mdel_le _ _ _
    · intro r
      left
      rfl
    · intro x hx
      exact hx

theorem handleConnectTransport_state (s : SysState)
    (socketRoomId : Option String) (socketPeerId transportId : String)
    (engineOk : Bool) :
    (handleConnectTransport s socketRoomId socketPeerId transportId
      engineOk).2 = s := by
  unfold handleConnectTransport
  cases socketRoomId with
  | none => rfl
  | some roomId =>
    dsimp only
    cases getPeer s roomId socketPeerId with
    | none => rfl
    | some peer =>
      dsimp only
      cases mget peer.transports transportId with
      | none => rfl
      | some t =>
        dsimp only
        by_cases h : engineOk = false
        · rw [if_pos h]
        · rw [if_neg h]

theorem sysInv_handleCreateTransport (s : SysState)
    (socketRoomId : Option String) (peerId : String) (direction : Direction)
    (freshTid : String) (engineOk : Bool) (hInv : SysInv s) :
    SysInv (handleCreateTransport s socketRoomId peerId direction freshTid
      engineOk).2 := by
  unfold handleCreateTransport
  cases socketRoomId with
  | none => exact hInv
  | some roomId =>
    dsimp only
    cases hm : mget s.rooms roomId with
    | none => exact hInv
    | some room =>
      dsimp only
      cases hp : mget room.peers peerId with
      | none => exact hInv
      | some peer =>
        dsimp only
        by_cases heng : engineOk = false
        · rw [if_pos heng]
          exact hInv
        · rw [if_neg heng]
          dsimp only
          have hpc : peerClean peer :=
            peerClean_of_mget hInv.2.2.2
              (show getPeer s roomId peerId = some peer by
                simp [getPeer, hm, hp])
          refine sysInv_setPeer hInv ?_
          intro tp htp
          rcases mem_mset htp with h | h
          · rw [h]
          · exact hpc tp h

theorem sysInv_handleProduce (s : SysState) (socketRoomId : Option String)
    (peerId transportId kind freshProducerId : String) (engineOk : Bool)
    (hInv : SysInv s) :
    SysInv (handleProduce s socketRoomId peerId transportId kind
      freshProducerId engineOk).2 := by
  unfold handleProduce
  cases socketRoomId with
  | none => exact hInv
  | some roomId =>
    dsimp only
    cases hp : getPeer s roomId peerId with
    | none => exact hInv
    | some peer =>
      dsimp only
      cases ht : mget peer.transports transportId with
      | none => exact hInv
      | some t =>
        dsimp only
        by_cases heng : engineOk = false
        · rw [if_pos heng]
          exact hInv
        · rw [if_neg heng]
          dsimp only
          have hpc : peerClean peer := peerClean_of_mget hInv.2.2.2 hp
          exact sysInv_setPeer hInv (fun tp htp => hpc tp htp)

theorem sysInv_handleConsume (s : SysState) (socketRoomId : Option String)
    (peerId producerId : String) (canConsume : Bool)
    (freshConsumerId : String) (hInv : SysInv s) :
    SysInv (handleConsume s socketRoomId peerId producerId canConsume
      freshConsumerId).2 := by
  unfold handleConsume
  cases socketRoomId with
  | none => exact hInv
  | some roomId =>
    dsimp only
    cases hm : mget s.rooms roomId with
    | none => exact hInv
    | some room =>
      cases hp : getPeer s roomId peerId with
      | none => exact hInv
      | some peer =>
        dsimp only
        cases hfind : (getRoomPeers s roomId).find?
            (fun p => mhas p.producers producerId) with
        | none => exact hInv
        | some producerPeer =>
          dsimp only
          by_cases hcan : canConsume = false
          · rw [if_pos hcan]
            exact hInv
          · rw [if_neg hcan]
            cases hrt : (mvalues peer.transports).find?
                (fun t => t.appDataDirection = some Direction.recv) with
            | none => exact hInv
            | some rt =>
              dsimp only
              have hpc : peerClean peer := peerClean_of_mget hInv.2.2.2 hp
              exact sysInv_setPeer hInv (fun tp htp => hpc tp htp)

theorem sysInv_handleResumeConsumer (s : SysState)
    (socketRoomId : Option String) (socketPeerId consumerId : String)
    (engineOk : Bool) (hInv : SysInv s) :
    SysInv (handleResumeConsumer s socketRoomId socketPeerId consumerId
      engineOk).2 := by
  unfold handleResumeConsumer
  cases socketRoomId with
  | none => exact hInv
  | some roomId =>
    dsimp only
    cases hp : getPeer s roomId socketPeerId with
    | none => exact hInv
    | some peer =>
      dsimp only
      cases hc : mget peer.consumers consumerId with
      | none => exact hInv
      | some consumer =>
        dsimp only
        by_cases heng : engineOk = false
        · rw [if_pos heng]
          exact hInv
        · rw [if_neg heng]
          dsimp only
          have hpc : peerClean peer := peerClean_of_mget hInv.2.2.2 hp
          exact sysInv_setPeer hInv (fun tp htp => hpc tp htp)

theorem sysInv_handleDisconnect (s : SysState) (socketRoomId : Option String)
    (socketPeerId : String) (hInv : SysInv s) :
    SysInv (handleDisconnect s socketRoomId socketPeerId).2.1 := by
  unfold handleDisconnect
  cases socketRoomId with
  | none => exact hInv
  | some roomId => exact sysInv_leaveRoom s roomId socketPeerId hInv

theorem sysInv_handleJoin (s : SysState)
    (peerId roomName peerName freshRoomId : String) (routerOk : Bool)
    (hfresh : freshRoomId ∉ s.usedRoomIds) (hInv : SysInv s) :
    SysInv (handleJoin s peerId roomName peerName freshRoomId routerOk).2.1 := by
  unfold handleJoin
  cases hf : getRoomByName s roomName with
  | some room =>
    dsimp only
    cases hj : joinRoom s room.id peerId peerName with
    | mk res s2 =>
      have h2 : (joinRoom s room.id peerId peerName).2 = s2 := by rw [hj]
      have hInv2 : SysInv s2 := h2 ▸ sysInv_joinRoom s room.id peerId
        peerName hInv
      cases res with
      | error e => exact hInv2
      | ok peer => exact hInv2
  | none =>
    dsimp only
    cases hc : createRoom s freshRoomId roomName routerOk with
    | mk cres s1 =>
      have h1 : (createRoom s freshRoomId roomName routerOk).2 = s1 := by
        rw [hc]
      have hInv1 : SysInv s1 := h1 ▸ sysInv_createRoom s freshRoomId roomName
        routerOk hfresh hInv
      cases cres with
      | error e => exact hInv1
      | ok room =>
        dsimp only
        cases hj : joinRoom s1 room.id peerId peerName with
        | mk res s2 =>
          have h2 : (joinRoom s1 room.id peerId peerName).2 = s2 := by
            rw [hj]
          have hInv2 : SysInv s2 := h2 ▸ sysInv_joinRoom s1 room.id peerId
            peerName hInv1
          cases res with
          | error e => exact hInv2
          | ok peer => exact hInv2

theorem reachable_sysInv {s : SysState} (h : Reachable s) : SysInv s := by
  induction h with
  | init =>
    refine ⟨List.nodup_nil, List.nodup_nil, ?_, ?_⟩
    · intro r
      refine ⟨?_, ?_, ?_, ?_⟩
      · simp [recCount, initState, mvalues]
      · intro _
        simp [recCount, initState, mvalues]
      · intro hge
        simp [recCount, initState, mvalues] at hge
      · intro hne
        simp [flagOf, initState, mget] at hne
    · intro rp hrp
      simp [initState] at hrp
  | step _ hstep ih =>
    cases hstep with
    | createRoom roomId roomName routerOk hfresh =>
      exact sysInv_createRoom _ roomId roomName routerOk hfresh ih
    | joinRoom roomId peerId peerName =>
      exact sysInv_joinRoom _ roomId peerId peerName ih
    | leaveRoom roomId peerId =>
      exact sysInv_leaveRoom _ roomId peerId ih
    | handleJoin peerId roomName peerName freshRoomId routerOk hfresh =>
      exact sysInv_handleJoin _ peerId roomName peerName freshRoomId routerOk
        hfresh ih
    | createTransport socketRoomId peerId direction freshTid engineOk =>
      exact sysInv_handleCreateTransport _ socketRoomId peerId direction
        freshTid engineOk ih
    | connectTransport socketRoomId socketPeerId transportId engineOk =>
      rw [handleConnectTransport_state]
      exact ih
    | produce socketRoomId peerId transportId kind freshProducerId
        engineOk =>
      exact sysInv_handleProduce _ socketRoomId peerId transportId kind
        freshProducerId engineOk ih
    | consume socketRoomId peerId producerId canConsume freshConsumerId =>
      exact sysInv_handleConsume _ socketRoomId peerId producerId canConsume
        freshConsumerId ih
    | resumeConsumer socketRoomId socketPeerId consumerId engineOk =>
      exact sysInv_handleResumeConsumer _ socketRoomId socketPeerId
        consumerId engineOk ih
    | disconnect socketRoomId socketPeerId =>
      exact sysInv_handleDisconnect _ socketRoomId socketPeerId ih
    | startRecording roomId recId filePathArg now plainOk ffmpegOk hfresh =>
      exact sysInv_startRecording _ roomId recId filePathArg now plainOk
        ffmpegOk hfresh ih
    | stopRecording recId now =>
      exact sysInv_stopRecording _ recId now ih
    | ffmpegEnd recId =>
      exact sysInv_ffmpegEnd _ recId ih
    | ffmpegError recId =>
      exact sysInv_ffmpegError _ recId ih
    | deleteRecording recId now =>
      exact sysInv_deleteRecording _ recId now ih

/-- C3: while a room's recording flag is set (a recording with status
`'recording'` is active for it), any further `startRecording` call for that
room throws the conflict error, starts no second FFmpeg process and leaves
the stored recordings, the active-recorder set and the room's recording
state unchanged (the whole state is returned untouched); and in every
reachable state at most one stored RecordingSession per room has status
`'recording'`. -/
theorem startRecording_conflict_and_mutex :
    (∀ (s : SysState) (roomId recId fp : String) (now : Nat)
        (plainOk ffmpegOk : Bool), isRoomRecording s roomId = true →
        (startRecording s roomId recId fp now plainOk ffmpegOk).1
            = Except.error "Room is already being recorded"
          ∧ (startRecording s roomId recId fp now plainOk ffmpegOk).2 = s)
    ∧ (∀ s : SysState, Reachable s → ∀ r : String, recCount s r ≤ 1) := by
  constructor
  · intro s roomId recId fp now plainOk ffmpegOk hrec
    have hroom : ∃ room, mget s.rooms roomId = some room := by
      unfold isRoomRecording at hrec
      cases hm : mget s.rooms roomId with
      | none =>
        rw [hm] at hrec
        simp at hrec
      | some room => exact ⟨room, rfl⟩
    obtain ⟨room, hm⟩ := hroom
    constructor <;>
      · unfold startRecording
        simp [hm, hrec]
  · intro s hs r
    exact ((reachable_sysInv hs).2.2.1 r).1

theorem startRecording_conflict_and_mutex_witness :
    ((startRecording
        { rooms := [("r1",
            { id := "r1", name := "demo", peers := [],
              recording := { isRecording := true, recordingId := some "rec0",
                             startTime := some 0, filePath := some "f" } })],
          routers := ["r1"], closedRouters := [], recordings := [],
          activeRecorders := [], usedRoomIds := ["r1"] }
        "r1" "rec1" "f2" 1 true true).1
      = Except.error "Room is already being recorded")
    ∧ recCount initState "r1" ≤ 1 :=
  ⟨(startRecording_conflict_and_mutex.1
      { rooms := [("r1",
          { id := "r1", name := "demo", peers := [],
            recording := { isRecording := true, recordingId := some "rec0",
                           startTime := some 0, filePath := some "f" } })],
        routers := ["r1"], closedRouters := [], recordings := [],
        activeRecorders := [], usedRoomIds := ["r1"] }
      "r1" "rec1" "f2" 1 true true (by decide)).1,
   startRecording_conflict_and_mutex.2 initState Reachable.init "r1"⟩

/-- C6: stopping a stored recording whose status is not `'recording'` throws
before any mutation: the whole state — in particular the stored recording's
`status`, `endTime` and `filePath` and the room's recording flag — is
returned unchanged. -/
theorem stopRecording_nonactive_fails_without_mutation
    (s : SysState) (recId : String) (now : Nat) (r0 : RecordingInfo)
    (hrec : mget s.recordings recId = some r0)
    (hst : r0.status ≠ RecStatus.recording) :
    stopRecording s recId now = (Except.error "Recording is not active", s) := by
  unfold stopRecording
  simp [hrec, hst]

theorem stopRecording_nonactive_witness :
    stopRecording
      { rooms := [], routers := [], closedRouters := [],
        recordings := [("rec1",
          { id := "rec1", roomId := "r1", filePath := "f",
            startTime := 0, endTime := some 3, status := RecStatus.stopped,
            participants := ["p1"] })],
        activeRecorders := [], usedRoomIds := ["r1"] } "rec1" 5
      = (Except.error "Recording is not active",
         { rooms := [], routers := [], closedRouters := [],
           recordings := [("rec1",
             { id := "rec1", roomId := "r1", filePath := "f",
               startTime := 0, endTime := some 3, status := RecStatus.stopped,
               participants := ["p1"] })],
           activeRecorders := [], usedRoomIds := ["r1"] }) :=
  stopRecording_nonactive_fails_without_mutation
    { rooms := [], routers := [], closedRouters := [],
      recordings := [("rec1",
        { id := "rec1", roomId := "r1", filePath := "f",
          startTime := 0, endTime := some 3, status := RecStatus.stopped,
          participants := ["p1"] })],
      activeRecorders := [], usedRoomIds := ["r1"] } "rec1" 5
    { id := "rec1", roomId := "r1", filePath := "f",
      startTime := 0, endTime := some 3, status := RecStatus.stopped,
      participants := ["p1"] }
    (by decide) (by decide)

/-- C5 (divergence documented): when `startRecording` fails after its
validation checks — here the FFmpeg start fails on a registered,
not-yet-recording room — the error is rethrown to the requester, but the
locally built RecordingInfo (whose `status` the catch block sets to
`'failed'`) was never inserted into `recordings`, so the state is unchanged
and `getRecording` on the new session id returns nothing: the failed
session is silently dropped instead of being retained with status
`'failed'`. -/
theorem startRecording_failure_drops_session :
    (startRecording (createRoom initState "r1" "demo" true).2 "r1" "rec1"
        "out.webm" 0 true false).1
      = Except.error "FFmpeg failed to start"
    ∧ (startRecording (createRoom initState "r1" "demo" true).2 "r1" "rec1"
        "out.webm" 0 true false).2
      = (createRoom initState "r1" "demo" true).2
    ∧ getRecording (startRecording (createRoom initState "r1" "demo" true).2
        "r1" "rec1" "out.webm" 0 true false).2 "rec1" = none := by
  exact ⟨rfl, by decide, by decide⟩

theorem getPeer_setPeer_self {s : SysState} {roomId pid : String}
    {room : RoomInfo} (hm : mget s.rooms roomId = some room)
    (peer' : PeerInfo) :
    getPeer (setPeer s roomId pid peer') roomId pid = some peer' := by
  unfold getPeer setPeer
  rw [hm]
  simp [mget_mset_self]

/-- C2: in every reachable state, a consume request whose `producerId` names
a producer owned by the requesting peer itself is rejected with an error and
creates no consumer — the state is returned unchanged, so the peer never
consumes its own producer. There is no explicit ownership check in
`handleConsume`; the rejection arises because `handleCreateTransport` never
attaches `appData.direction` to a stored transport, so the receive-transport
lookup `t.appData?.direction === 'recv'` fails for every stored transport of
the requester (or the engine compatibility check fails first). -/
theorem self_consume_rejected (s : SysState) (hs : Reachable s)
    (roomId peerId producerId : String) (peer : PeerInfo)
    (canConsume : Bool) (freshConsumerId : String)
    (hpeer : getPeer s roomId peerId = some peer)
    (hown : mhas peer.producers producerId = true) :
    ∃ e, handleConsume s (some roomId) peerId producerId canConsume
        freshConsumerId = ([Emit.direct (Msg.errorMsg e)], s) := by
  have hclean : peerClean peer :=
    peerClean_of_mget (reachable_sysInv hs).2.2.2 hpeer
  have hrt : (mvalues peer.transports).find?
      (fun t => t.appDataDirection = some Direction.recv) = none := by
    cases hf : (mvalues peer.transports).find?
        (fun t => t.appDataDirection = some Direction.recv) with
    | none => rfl
    | some t =>
      exfalso
      have ht := List.mem_of_find?_eq_some hf
      have hp := List.find?_some hf
      obtain ⟨tp, htp, hte⟩ := List.mem_map.mp ht
      have hdir := hclean tp htp
      rw [← hte, hdir] at hp
      simp at hp
  have hroom : ∃ room, mget s.rooms roomId = some room := by
    unfold getPeer at hpeer
    cases hm : mget s.rooms roomId with
    | none =>
      rw [hm] at hpeer
      cases hpeer
    | some room => exact ⟨room, rfl⟩
  obtain ⟨room, hm⟩ := hroom
  have hmem : peer ∈ getRoomPeers s roomId := by
    unfold getRoomPeers
    rw [hm]
    unfold getPeer at hpeer
    rw [hm] at hpeer
    simp only at hpeer
    exact List.mem_map_of_mem Prod.snd (mget_some_mem hpeer)
  have hfindsome : ((getRoomPeers s roomId).find?
      (fun p => mhas p.producers producerId)).isSome = true := by
    rw [List.find?_isSome]
    exact ⟨peer, hmem, hown⟩
  unfold handleConsume
  dsimp only
  rw [hm, hpeer]
  dsimp only
  cases hfind : (getRoomPeers s roomId).find?
      (fun p => mhas p.producers producerId) with
  | none =>
    rw [hfind] at hfindsome
    simp at hfindsome
  | some producerPeer =>
    dsimp only
    by_cases hcan : canConsume = false
    · refine ⟨"Cannot consume", ?_⟩
      rw [if_pos hcan]
    · refine ⟨"Receive transport not found", ?_⟩
      rw [if_neg hcan, hrt]

theorem self_consume_rejected_witness :
    ∃ e, handleConsume
        (handleProduce (handleCreateTransport ((joinRoom
            ((createRoom initState "r1" "demo" true).2) "r1" "p1" "Alice").2)
          (some "r1") "p1" Direction.send "t1" true).2
          (some "r1") "p1" "t1" "video" "pr1" true).2
        (some "r1") "p1" "pr1" true "c1"
      = ([Emit.direct (Msg.errorMsg e)],
         (handleProduce (handleCreateTransport ((joinRoom
             ((createRoom initState "r1" "demo" true).2) "r1" "p1" "Alice").2)
           (some "r1") "p1" Direction.send "t1" true).2
           (some "r1") "p1" "t1" "video" "pr1" true).2) :=
  self_consume_rejected
    (handleProduce (handleCreateTransport ((joinRoom
        ((createRoom initState "r1" "demo" true).2) "r1" "p1" "Alice").2)
      (some "r1") "p1" Direction.send "t1" true).2
      (some "r1") "p1" "t1" "video" "pr1" true).2
    (Reachable.step (Reachable.step (Reachable.step (Reachable.step
        Reachable.init
        (Step.createRoom initState "r1" "demo" true (by decide)))
        (Step.joinRoom _ "r1" "p1" "Alice"))
        (Step.createTransport _ (some "r1") "p1" Direction.send "t1" true))
        (Step.produce _ (some "r1") "p1" "t1" "video" "pr1" true))
    "r1" "p1" "pr1"
    { id := "p1", name := "Alice",
      transports := [("t1", { id := "t1", appDataDirection := none })],
      producers := [("pr1", { id := "pr1", kind := "video" })],
      consumers := [] }
    true "c1" (by decide) (by decide)

/-- C4 counterexample: starting from the empty state, a peer joins and
issues two `createTransport` requests for the `send` direction; the second
request is not rejected — it emits `transportCreated` (no error) and stores
a second transport, so the peer holds two transports obtained via
same-direction requests. -/
theorem second_send_transport_accepted :
    (handleCreateTransport (handleCreateTransport ((joinRoom
        ((createRoom initState "r1" "demo" true).2) "r1" "p1" "Alice").2)
      (some "r1") "p1" Direction.send "t1" true).2
      (some "r1") "p1" Direction.send "t2" true).1
      = [Emit.direct (Msg.transportCreated "t2")]
    ∧ getPeer (handleCreateTransport (handleCreateTransport ((joinRoom
        ((createRoom initState "r1" "demo" true).2) "r1" "p1" "Alice").2)
      (some "r1") "p1" Direction.send "t1" true).2
      (some "r1") "p1" Direction.send "t2" true).2 "r1" "p1"
      = some
        { id := "p1", name := "Alice",
          transports := [("t1", { id := "t1", appDataDirection := none }),
                         ("t2", { id := "t2", appDataDirection := none })],
          producers := [], consumers := [] } := by
  exact ⟨by decide, by decide⟩

/-- C4 (amended): `handleCreateTransport` enforces no per-direction limit:
whenever the socket's room and the target peer exist and the engine call
succeeds, the request succeeds for either direction regardless of which
transports the peer already holds — it emits `transportCreated` and stores
one additional transport keyed by its (fresh) id; a peer may therefore hold
any number of transports per direction. -/
theorem createTransport_no_direction_guard
    (s : SysState) (roomId peerId : String) (direction : Direction)
    (freshTid : String) (room : RoomInfo) (peer : PeerInfo)
    (hm : mget s.rooms roomId = some room)
    (hp : mget room.peers peerId = some peer)
    (hfresh : mget peer.transports freshTid = none) :
    (handleCreateTransport s (some roomId) peerId direction freshTid true).1
      = [Emit.direct (Msg.transportCreated freshTid)]
    ∧ ∃ peer', getPeer (handleCreateTransport s (some roomId) peerId
        direction freshTid true).2 roomId peerId = some peer'
      ∧ peer'.transports.length = peer.transports.length + 1 := by
  unfold handleCreateTransport
  dsimp only
  rw [hm]
  dsimp only
  rw [hp]
  dsimp only
  rw [if_neg (by simp : ¬(true = false))]
  dsimp only
  refine ⟨rfl, _, getPeer_setPeer_self hm _, ?_⟩
  exact length_mset_of_none _ hfresh

theorem createTransport_no_direction_guard_witness :
    (handleCreateTransport ((joinRoom
        ((createRoom initState "r1" "demo" true).2) "r1" "p1" "Alice").2)
      (some "r1") "p1" Direction.send "t1" true).1
      = [Emit.direct (Msg.transportCreated "t1")] :=
  (createTransport_no_direction_guard ((joinRoom
      ((createRoom initState "r1" "demo" true).2) "r1" "p1" "Alice").2)
    "r1" "p1" Direction.send "t1"
    { id := "r1", name := "demo",
      peers := [("p1",
        { id := "p1", name := "Alice", transports := [], producers := [],
          consumers := [] })],
      recording := { isRecording := false, recordingId := none,
                     startTime := none, filePath := none } }
    { id := "p1", name := "Alice", transports := [], producers := [],
      consumers := [] }
    (by decide) (by decide) (by decide)).1

/-- C9: for every successful join (`handleJoin` binds the socket to a room),
the emitted sequence is exactly the direct `joined` response to the joining
connection, then the `peerJoined` broadcast naming that peer to the rest of
the room, then the direct `existingPeers` snapshot — so the joiner's own
identity response is emitted strictly before the broadcast naming it. -/
theorem joined_emitted_before_peerJoined_broadcast
    (s : SysState) (peerId roomName peerName freshRoomId : String)
    (routerOk : Bool) (rid : String)
    (hok : (handleJoin s peerId roomName peerName freshRoomId routerOk).2.2
      = some rid) :
    ∃ isRec others,
      (handleJoin s peerId roomName peerName freshRoomId routerOk).1
        = [Emit.direct (Msg.joined peerId rid isRec),
           Emit.toRoom rid (Msg.peerJoined peerId peerName),
           Emit.direct (Msg.existingPeers others)] := by
  unfold handleJoin at hok ⊢
  cases hf : getRoomByName s roomName with
  | some room =>
    rw [hf] at hok
    try dsimp only at hok
    try dsimp only
    cases hj : joinRoom s room.id peerId peerName with
    | mk res s2 =>
      rw [hj] at hok
      cases res with
      | error e =>
        try dsimp only at hok
        simp at hok
      | ok peer =>
        try dsimp only at hok
        try dsimp only
        have he : room.id = rid := Option.some.inj hok
        subst he
        exact ⟨_, _, rfl⟩
  | none =>
    rw [hf] at hok
    try dsimp only at hok
    try dsimp only
    cases hc : createRoom s freshRoomId roomName routerOk with
    | mk cres s1 =>
      rw [hc] at hok
      cases cres with
      | error e =>
        try dsimp only at hok
        simp at hok
      | ok room =>
        try dsimp only at hok
        try dsimp only
        cases hj : joinRoom s1 room.id peerId peerName with
        | mk res s2 =>
          rw [hj] at hok
          cases res with
          | error e =>
            try dsimp only at hok
            simp at hok
          | ok peer =>
            try dsimp only at hok
            try dsimp only
            have he : room.id = rid := Option.some.inj hok
            subst he
            exact ⟨_, _, rfl⟩

theorem joined_before_peerJoined_witness :
    ∃ isRec others,
      (handleJoin initState "p1" "demo" "Alice" "r1" true).1
        = [Emit.direct (Msg.joined "p1" "r1" isRec),
           Emit.toRoom "r1" (Msg.peerJoined "p1" "Alice"),
           Emit.direct (Msg.existingPeers others)] :=
  joined_emitted_before_peerJoined_broadcast initState "p1" "demo" "Alice"
    "r1" true "r1" (by decide)

end WebRTCPlatform
